import Mathlib

/-!
# log4go: the asynchronous logging pipeline of `log.go`

A shallow embedding of `src/log.go`.  A `*Logger` together with its dispatch
goroutine is a value of `Sys`; every method is a function on that state, and the
calls it makes on writers, on the record pool and on the channels are appended
to an event trace.  What the code takes from the standard library and cannot
compute itself (message rendering, time formatting, the errors returned by
writers) is the parameter `Env`.
-/

deriving instance DecidableEq for Except

namespace Log4go

/-! ## Records -/

/-- Values held by an `interface{}`, as far as this development inspects them. -/
inductive Any where
  | nil
  | str (s : String)
  | int (i : Int)
  | bool (b : Bool)
deriving DecidableEq, Repr

/-- The two ways a call can fail to return normally. -/
inductive Fault where
  | panic (msg : String)
  | blocked
deriving DecidableEq, Repr

/-- The table `LEVEL_FLAGS`. -/
def LEVEL_FLAGS : List String := ["DEBUG", "INFO", "NEVERShow", "WARN", "ERROR", "FATAL"]

def DEBUG : Int := 0
def INFO : Int := 1
def NEVERShow : Int := 2
def WARNING : Int := 3
def ERROR : Int := 4
def FATAL : Int := 5

def tunnel_size_default : Nat := 1024

/-- The struct `Record`. -/
structure Record where
  Time : String
  Code : String
  Info : String
  Level : Int
  Ext : Any
deriving DecidableEq, Repr

/-- The value `&Record{}` built by the pool's `New`. -/
def Record.zero : Record := { Time := "", Code := "", Info := "", Level := 0, Ext := .nil }

/-- Indexing `LEVEL_FLAGS[i]` with a Go `int`: out of range is a run-time panic. -/
def levelFlag (i : Int) : Except Fault String :=
  if i < 0 then .error (.panic "index out of range")
  else match LEVEL_FLAGS.get? i.toNat with
    | some flag => .ok flag
    | none => .error (.panic "index out of range")

/-- The function `fmt.Sprintf` on string operands, read off the characters of the
format: `%s` prints the next operand, `%%` a percent sign, every other
character is copied.  Other verbs, a missing operand and surplus operands are
outside this embedding and reported as an error. -/
def sprintfChars : List Char → List String → Except String (List Char)
  | [], [] => .ok []
  | [], _ :: _ => .error "surplus operand"
  | c :: fmt, args =>
    if c = '%' then
      match fmt, args with
      | 's' :: rest, a :: as => (a.toList ++ ·) <$> sprintfChars rest as
      | 's' :: _, [] => .error "missing operand"
      | '%' :: rest, as => ('%' :: ·) <$> sprintfChars rest as
      | _, _ => .error "verb not embedded"
    else (c :: ·) <$> sprintfChars fmt args

def sprintfS (format : String) (args : List String) : Except String String :=
  String.mk <$> sprintfChars format.toList args

/-- The method `(*Record).String`. -/
def Record.String (r : Record) : Except Fault String :=
  match levelFlag r.Level with
  | .error e => .error e
  | .ok flag =>
    match sprintfS "%s \t [%s] \t <%s>  \t %s\n" [r.Time, flag, r.Code, r.Info] with
    | .ok s => .ok s
    | .error e => .error (.panic e)

/-! ## Library functions used by the emit path -/

/-- A `time.Time`: seconds since the Unix epoch and the nanoseconds within the second. -/
structure GoTime where
  sec : Int
  nsec : Nat
deriving DecidableEq, Repr

/-- The method `Time.Unix`. -/
def GoTime.Unix (t : GoTime) : Int := t.sec

/-- The function `path.Base`. -/
def pathBase (path : String) : String :=
  if path = "" then "."
  else
    let stripped := (path.toList.reverse.dropWhile (· = '/')).reverse
    let last := (stripped.reverse.takeWhile (· ≠ '/')).reverse
    if last = [] then "/" else String.mk last

/-- The function `strconv.Itoa`. -/
def Itoa (i : Int) : String := toString i

/-- Year, month and day of a day count since 1970-01-01 (proleptic Gregorian calendar). -/
def civilFromDays (days : Int) : Int × Int × Int :=
  let z := days + 719468
  let era := z / 146097
  let doe := z - era * 146097
  let yoe := (doe - doe / 1460 + doe / 36524 - doe / 146096) / 365
  let doy := doe - (365 * yoe + yoe / 4 - yoe / 100)
  let mp := (5 * doy + 2) / 153
  let d := doy - (153 * mp + 2) / 5 + 1
  let m := if mp < 10 then mp + 3 else mp - 9
  (yoe + era * 400 + (if m ≤ 2 then 1 else 0), m, d)

/-- The helper `appendInt` of package time: decimal digits, zero-padded to `width`. -/
def appendInt (x : Int) (width : Nat) : List Char :=
  let digits := (toString x.natAbs).toList
  (if x < 0 then ['-'] else []) ++ List.replicate (width - digits.length) '0' ++ digits

/-- Broken-down time in the UTC location. -/
structure Clock where
  year : Int
  month : Int
  day : Int
  hour : Int
  minute : Int
  second : Int
deriving DecidableEq, Repr

def GoTime.clockUTC (t : GoTime) : Clock :=
  let (y, m, d) := civilFromDays (t.sec / 86400)
  let s := t.sec % 86400
  { year := y, month := m, day := d, hour := s / 3600, minute := (s % 3600) / 60, second := s % 60 }

def hour12 (h : Int) : Int := if h % 12 = 0 then 12 else h % 12

/-- The layout scanner of `Time.Format` for the numeric reference elements
`2006 06 01 1 02 2 15 03 3 04 4 05 5`; every other character is copied. -/
def formatChars (k : Clock) : List Char → List Char
  | [] => []
  | '2' :: '0' :: '0' :: '6' :: rest => appendInt k.year 4 ++ formatChars k rest
  | '2' :: rest => appendInt k.day 0 ++ formatChars k rest
  | '1' :: '5' :: rest => appendInt k.hour 2 ++ formatChars k rest
  | '1' :: rest => appendInt k.month 0 ++ formatChars k rest
  | '0' :: '1' :: rest => appendInt k.month 2 ++ formatChars k rest
  | '0' :: '2' :: rest => appendInt k.day 2 ++ formatChars k rest
  | '0' :: '3' :: rest => appendInt (hour12 k.hour) 2 ++ formatChars k rest
  | '0' :: '4' :: rest => appendInt k.minute 2 ++ formatChars k rest
  | '0' :: '5' :: rest => appendInt k.second 2 ++ formatChars k rest
  | '0' :: '6' :: rest => appendInt ((k.year.natAbs : Int) % 100) 2 ++ formatChars k rest
  | '3' :: rest => appendInt (hour12 k.hour) 0 ++ formatChars k rest
  | '4' :: rest => appendInt k.minute 0 ++ formatChars k rest
  | '5' :: rest => appendInt k.second 0 ++ formatChars k rest
  | c :: rest => c :: formatChars k rest

/-- The method `Time.Format` for a time in the UTC location and a layout built from
the numeric reference elements and literal text that spells no other reference
element (month and weekday names, `PM`, zone and fraction elements). -/
def formatUTC (t : GoTime) (layout : String) : String :=
  String.mk (formatChars t.clockUTC layout.toList)

/-! ## Writers, events and the environment -/

/-- A registered writer, reduced to what the logger observes of it: the result of
`Init`, and whether its dynamic type also implements `Flusher` and `Rotater`. -/
structure Writer where
  name : String
  initErr : Bool
  isFlusher : Bool
  isRotater : Bool
deriving DecidableEq, Repr

/-- The calls a logger makes on its surroundings.  Writers are named by their
position in `l.writers`. -/
inductive Action where
  | Format (t : GoTime) (layout : String)
  | Get (r : Record)
  | Send (r : Record)
  | Write (i : Nat) (r : Record)
  | Flush (i : Nat)
  | Rotate (i : Nat)
  | Println
  | Put (r : Record)
  | Signal
  | CloseTunnel
deriving DecidableEq, Repr

/-- What the code obtains from outside the repository: `fmt.Sprintf` and
`fmt.Sprint` on arbitrary operands, `Time.Format`, and for every call of
`Write`, `Flush` or `Rotate` whether it returned an error, which may depend on
everything that happened before (the trace ends with the call in question). -/
structure Env where
  Sprintf : String → List Any → String
  Sprint : List Any → String
  Format : GoTime → String → String
  fails : List Action → Bool

/-- What one emit call reads from its surroundings. -/
structure Ambient where
  now : GoTime
  caller : Option (String × Int)
  pick : Nat

/-! ## The logger and its dispatch goroutine -/

/-- A buffered `chan *Record`: the queued records, oldest first, and the closed flag.
A send on a full buffer waits for the receiver and is recorded when it
completes, so the capacity does not appear. -/
structure Chan where
  buf : List Record
  closed : Bool
deriving DecidableEq, Repr

/-- The struct `Logger`. -/
structure Logger where
  writers : List Writer
  tunnel : Chan
  level : Int
  lastTime : Int
  lastTimeStr : String
  c : List Bool
  layout : String
deriving DecidableEq, Repr

/-- Where the goroutine `boostrapLogWriter(l)` stands: at the first receive, inside
the `for`/`select` loop, or returned. -/
inductive Phase where
  | first
  | loop
  | done
deriving DecidableEq, Repr

/-- The case a `select` of the loop takes. -/
inductive Sel where
  | tunnel
  | flushTimer
  | rotateTimer
deriving DecidableEq, Repr

/-- A logger with its dispatch goroutine, the timers of that goroutine (the duration
in milliseconds they were last armed with) and the calls made so far. -/
structure Proc where
  logger : Logger
  phase : Phase
  flushTimer : Option Nat
  rotateTimer : Option Nat
  trace : List Action
deriving DecidableEq, Repr

/-- A `Proc` together with the package-level `recordPool`. -/
structure Sys extends Proc where
  pool : List Record
deriving DecidableEq, Repr

/-- The method `recordPool.Get`: one of the pooled records, or a new one from `New`. -/
def poolGet (pool : List Record) (pick : Nat) : Record × List Record :=
  match pool.get? pick with
  | some r => (r, pool.eraseIdx pick)
  | none => (Record.zero, pool)

/-- The statement `ch <- r`. -/
def Chan.send (ch : Chan) (r : Record) : Except Fault Chan :=
  if ch.closed then .error (.panic "send on closed channel")
  else .ok { ch with buf := ch.buf ++ [r] }

/-- The method `(*Logger).Register`. -/
def Logger.Register (w : Writer) (s : Sys) : Except Fault Sys :=
  if w.initErr then .error (.panic "Init")
  else .ok { s with logger := { s.logger with writers := s.logger.writers ++ [w] } }

/-- The method `(*Logger).SetLevel`. -/
def Logger.SetLevel (lvl : Int) (s : Sys) : Sys :=
  { s with logger := { s.logger with level := lvl } }

/-- The method `(*Logger).SetLayout`. -/
def Logger.SetLayout (layout : String) (s : Sys) : Sys :=
  { s with logger := { s.logger with layout := layout } }

/-- The lines `now := time.Now(); if now.Unix() != l.lastTime { ... }` shared by both
emit functions. -/
def refreshTime (env : Env) (now : GoTime) (s : Sys) : Sys :=
  if now.Unix ≠ s.logger.lastTime then
    { s with
      logger := { s.logger with
        lastTime := now.Unix, lastTimeStr := env.Format now s.logger.layout }
      trace := s.trace ++ [.Format now s.logger.layout] }
  else s

/-- The source position `path.Base(file) + ":" + strconv.Itoa(line)`. -/
def codeOf (caller : Option (String × Int)) : String :=
  match caller with
  | some (file, line) => pathBase file ++ ":" ++ Itoa line
  | none => ""

/-- The method `(*Logger).deliverRecordToWriterCodeLine`. -/
def Logger.deliverRecordToWriterCodeLine (env : Env) (amb : Ambient) (level : Int)
    (format : String) (codeLine : Bool) (args : List Any) (s : Sys) : Except Fault Sys :=
  if level < s.logger.level then .ok s
  else
    let inf := if format ≠ "" then env.Sprintf format args else env.Sprint args
    let code := if codeLine then codeOf amb.caller else ""
    let s1 := refreshTime env amb.now s
    let got := poolGet s1.pool amb.pick
    let r := { got.1 with Info := inf, Code := code, Time := s1.logger.lastTimeStr, Level := level }
    match s1.logger.tunnel.send r with
    | .error e => .error e
    | .ok ch =>
      .ok { s1 with
        logger := { s1.logger with tunnel := ch }
        pool := got.2
        trace := s1.trace ++ [.Get got.1, .Send r] }

/-- The method `(*Logger).deliverRecordToWriter`. -/
def Logger.deliverRecordToWriter (env : Env) (amb : Ambient) (level : Int)
    (format : String) (args : List Any) (s : Sys) : Except Fault Sys :=
  Logger.deliverRecordToWriterCodeLine env amb level format true args s

/-- The method `(*Logger).deliverRecordExtToWriter`. -/
def Logger.deliverRecordExtToWriter (env : Env) (amb : Ambient) (ext : Any) (level : Int)
    (format : String) (args : List Any) (s : Sys) : Except Fault Sys :=
  if level < s.logger.level then .ok s
  else
    let inf := if format ≠ "" then env.Sprintf format args else env.Sprint args
    let code := codeOf amb.caller
    let s1 := refreshTime env amb.now s
    let got := poolGet s1.pool amb.pick
    let r := { got.1 with
      Info := inf, Code := code, Time := s1.logger.lastTimeStr, Level := level, Ext := ext }
    match s1.logger.tunnel.send r with
    | .error e => .error e
    | .ok ch =>
      .ok { s1 with
        logger := { s1.logger with tunnel := ch }
        pool := got.2
        trace := s1.trace ++ [.Get got.1, .Send r] }

/-- The loop `for _, w := range logger.writers { if err := w.Write(r); ... }`. -/
def fanOut (env : Env) (r : Record) : Nat → List Writer → List Action → List Action
  | _, [], tr => tr
  | i, _ :: ws, tr =>
    let tr1 := tr ++ [.Write i r]
    fanOut env r (i + 1) ws (if env.fails tr1 then tr1 ++ [.Println] else tr1)

/-- The loop `for _, w := range l.writers { if f, ok := w.(Flusher); ok { ... } }`. -/
def flushAll (env : Env) : Nat → List Writer → List Action → List Action
  | _, [], tr => tr
  | i, w :: ws, tr =>
    if w.isFlusher then
      let tr1 := tr ++ [.Flush i]
      flushAll env (i + 1) ws (if env.fails tr1 then tr1 ++ [.Println] else tr1)
    else flushAll env (i + 1) ws tr

/-- The loop `for _, w := range logger.writers { if r, ok := w.(Rotater); ok { ... } }`. -/
def rotateAll (env : Env) : Nat → List Writer → List Action → List Action
  | _, [], tr => tr
  | i, w :: ws, tr =>
    if w.isRotater then
      let tr1 := tr ++ [.Rotate i]
      rotateAll env (i + 1) ws (if env.fails tr1 then tr1 ++ [.Println] else tr1)
    else rotateAll env (i + 1) ws tr

/-- The lines `logger.c <- true; return`: `c` has capacity 1, the send waits while it
is full. -/
def signalDone (s : Sys) : Sys :=
  if s.logger.c.length < 1 then
    { s with
      logger := { s.logger with c := s.logger.c ++ [true] }
      phase := .done
      trace := s.trace ++ [.Signal] }
  else s

/-- One scheduling step of `boostrapLogWriter(logger)`.  At the first receive the
goroutine waits for the tunnel alone; in the loop `sel` is the `select` case
that fires, and the tunnel case can fire only when a record is queued or the
tunnel is closed. -/
def boostrapLogWriter (env : Env) (sel : Sel) (s : Sys) : Sys :=
  match s.phase with
  | .done => s
  | .first =>
    match s.logger.tunnel.buf with
    | [] => if s.logger.tunnel.closed then signalDone s else s
    | r :: rest =>
      { s with
        logger := { s.logger with tunnel := { s.logger.tunnel with buf := rest } }
        trace := fanOut env r 0 s.logger.writers s.trace
        phase := .loop
        flushTimer := some 500
        rotateTimer := some 10000 }
  | .loop =>
    match sel with
    | .tunnel =>
      match s.logger.tunnel.buf with
      | [] => if s.logger.tunnel.closed then signalDone s else s
      | r :: rest =>
        { s with
          logger := { s.logger with tunnel := { s.logger.tunnel with buf := rest } }
          trace := fanOut env r 0 s.logger.writers s.trace ++ [.Put r]
          pool := r :: s.pool }
    | .flushTimer =>
      { s with trace := flushAll env 0 s.logger.writers s.trace, flushTimer := some 1000 }
    | .rotateTimer =>
      { s with trace := rotateAll env 0 s.logger.writers s.trace, rotateTimer := some 10000 }

/-- The goroutine run for the scheduling steps `sched`. -/
def dispatch (env : Env) (sched : List Sel) (s : Sys) : Sys :=
  sched.foldl (fun st sel => boostrapLogWriter env sel st) s

/-- First statement of `(*Logger).Close`: `close(l.tunnel)`. -/
def closeTunnel (s : Sys) : Except Fault Sys :=
  if s.logger.tunnel.closed then .error (.panic "close of closed channel")
  else
    .ok { s with
      logger := { s.logger with tunnel := { s.logger.tunnel with closed := true } }
      trace := s.trace ++ [.CloseTunnel] }

/-- Rest of `(*Logger).Close`: the receive `<-l.c`, which waits for the signal of the
dispatch goroutine, and the flush loop. -/
def closeFlush (env : Env) (s : Sys) : Except Fault Sys :=
  match s.logger.c with
  | [] => .error .blocked
  | _ :: c =>
    .ok { s with
      logger := { s.logger with c := c }
      trace := flushAll env 0 s.logger.writers s.trace }

/-- The method `(*Logger).Close`, with the dispatch goroutine taking the steps `sched`
while `Close` waits. -/
def Logger.Close (env : Env) (sched : List Sel) (s : Sys) : Except Fault Sys :=
  match closeTunnel s with
  | .error e => .error e
  | .ok s1 => closeFlush env (dispatch env sched s1)

/-- The operations of one logger and of its goroutine, in the order a run interleaves
them. -/
inductive Op where
  | Register (w : Writer)
  | SetLevel (lvl : Int)
  | SetLayout (layout : String)
  | deliver (amb : Ambient) (level : Int) (format : String) (codeLine : Bool) (args : List Any)
  | deliverExt (amb : Ambient) (ext : Any) (level : Int) (format : String) (args : List Any)
  | step (sel : Sel)
  | closeTunnel
  | closeFlush

def exec (env : Env) (op : Op) (s : Sys) : Except Fault Sys :=
  match op with
  | .Register w => Logger.Register w s
  | .SetLevel lvl => .ok (Logger.SetLevel lvl s)
  | .SetLayout layout => .ok (Logger.SetLayout layout s)
  | .deliver amb level format codeLine args =>
    Logger.deliverRecordToWriterCodeLine env amb level format codeLine args s
  | .deliverExt amb ext level format args =>
    Logger.deliverRecordExtToWriter env amb ext level format args s
  | .step sel => .ok (boostrapLogWriter env sel s)
  | .closeTunnel => closeTunnel s
  | .closeFlush => closeFlush env s

/-- Run a sequence of operations; the run stops at the first that panics or cannot
proceed. -/
def run (env : Env) : List Op → Sys → Except Fault Sys
  | [], s => .ok s
  | op :: ops, s =>
    match exec env op s with
    | .error e => .error e
    | .ok s1 => run env ops s1

/-- The logger built by the allocating branch of `NewLogger`. -/
def Logger.new : Logger :=
  { writers := [], tunnel := { buf := [], closed := false }, level := DEBUG,
    lastTime := 0, lastTimeStr := "", c := [], layout := "2006-01-02 15:04:05" }

/-- A logger just built, its goroutine started by `go boostrapLogWriter(l)`. -/
def Proc.new : Proc :=
  { logger := Logger.new, phase := .first, flushTimer := none, rotateTimer := none, trace := [] }

def Sys.new (pool : List Record) : Sys := { Proc.new with pool := pool }

/-! ## Package state: `logger_default`, `takeup` and the facade -/

/-- The package-level variables.  `heap` holds every `Logger` allocated so far, each
with the goroutine started for it, and a `*Logger` is a position in `heap`;
`logger_default = none` is the nil pointer.  The pool before `init` has
assigned it is not distinguished from an empty pool. -/
structure Pkg where
  heap : List Proc
  logger_default : Option Nat
  takeup : Bool
  recordPool : List Record
deriving DecidableEq, Repr

/-- The package variables before `init` has run. -/
def Pkg.zero : Pkg := { heap := [], logger_default := none, takeup := false, recordPool := [] }

/-- The function `NewLogger`: the pointer returned and the package state left. -/
def NewLogger (p : Pkg) : Nat × Pkg :=
  match p.logger_default, p.takeup with
  | some d, false => (d, { p with takeup := true })
  | _, _ =>
    let l := p.heap.length
    (l, { p with heap := p.heap ++ [Proc.new], logger_default := some l })

/-- The function `init`. -/
def init (p : Pkg) : Pkg :=
  let r := NewLogger p
  { r.2 with logger_default := some r.1, recordPool := [] }

/-- Apply a method to the logger `l` points to. -/
def onLogger (l : Nat) (f : Sys → Except Fault Sys) (p : Pkg) : Except Fault Pkg :=
  match p.heap.get? l with
  | none => .error (.panic "invalid memory address or nil pointer dereference")
  | some pr =>
    match f { pr with pool := p.recordPool } with
    | .error e => .error e
    | .ok s => .ok { p with heap := p.heap.set l s.toProc, recordPool := s.pool }

/-- Apply a method to `logger_default`, as every package-level function does. -/
def onDefault (f : Sys → Except Fault Sys) (p : Pkg) : Except Fault Pkg :=
  match p.logger_default with
  | none => .error (.panic "invalid memory address or nil pointer dereference")
  | some d => onLogger d f p

def SetLevel (lvl : Int) : Pkg → Except Fault Pkg :=
  onDefault (fun s => .ok (Logger.SetLevel lvl s))

def SetLayout (layout : String) : Pkg → Except Fault Pkg :=
  onDefault (fun s => .ok (Logger.SetLayout layout s))

def Register (w : Writer) : Pkg → Except Fault Pkg :=
  onDefault (Logger.Register w)

def Close (env : Env) (sched : List Sel) : Pkg → Except Fault Pkg :=
  onDefault (Logger.Close env sched)

def Debug (env : Env) (amb : Ambient) (args : List Any) : Pkg → Except Fault Pkg :=
  onDefault (Logger.deliverRecordToWriter env amb DEBUG "" args)

def Warn (env : Env) (amb : Ambient) (args : List Any) : Pkg → Except Fault Pkg :=
  onDefault (Logger.deliverRecordToWriter env amb WARNING "" args)

def Info (env : Env) (amb : Ambient) (args : List Any) : Pkg → Except Fault Pkg :=
  onDefault (Logger.deliverRecordToWriter env amb INFO "" args)

def Error (env : Env) (amb : Ambient) (args : List Any) : Pkg → Except Fault Pkg :=
  onDefault (Logger.deliverRecordToWriter env amb ERROR "" args)

def Fatal (env : Env) (amb : Ambient) (args : List Any) : Pkg → Except Fault Pkg :=
  onDefault (Logger.deliverRecordToWriter env amb FATAL "" args)

def DebugF (env : Env) (amb : Ambient) (fmt : String) (args : List Any) :
    Pkg → Except Fault Pkg :=
  onDefault (Logger.deliverRecordToWriter env amb DEBUG fmt args)

def WarnF (env : Env) (amb : Ambient) (fmt : String) (args : List Any) :
    Pkg → Except Fault Pkg :=
  onDefault (Logger.deliverRecordToWriter env amb WARNING fmt args)

def InfoF (env : Env) (amb : Ambient) (fmt : String) (args : List Any) :
    Pkg → Except Fault Pkg :=
  onDefault (Logger.deliverRecordToWriter env amb INFO fmt args)

def InfoFNL (env : Env) (amb : Ambient) (fmt : String) (args : List Any) :
    Pkg → Except Fault Pkg :=
  onDefault (Logger.deliverRecordToWriterCodeLine env amb INFO fmt false args)

def ErrorF (env : Env) (amb : Ambient) (fmt : String) (args : List Any) :
    Pkg → Except Fault Pkg :=
  onDefault (Logger.deliverRecordToWriter env amb ERROR fmt args)

def FatalF (env : Env) (amb : Ambient) (fmt : String) (args : List Any) :
    Pkg → Except Fault Pkg :=
  onDefault (Logger.deliverRecordToWriter env amb FATAL fmt args)

def DebugExtF (env : Env) (amb : Ambient) (ext : Any) (fmt : String) (args : List Any) :
    Pkg → Except Fault Pkg :=
  onDefault (Logger.deliverRecordExtToWriter env amb ext DEBUG fmt args)

def WarnExtF (env : Env) (amb : Ambient) (ext : Any) (fmt : String) (args : List Any) :
    Pkg → Except Fault Pkg :=
  onDefault (Logger.deliverRecordExtToWriter env amb ext WARNING fmt args)

def InfoExtF (env : Env) (amb : Ambient) (ext : Any) (fmt : String) (args : List Any) :
    Pkg → Except Fault Pkg :=
  onDefault (Logger.deliverRecordExtToWriter env amb ext INFO fmt args)

def NeverShowF (env : Env) (amb : Ambient) (ext : Any) (fmt : String) (args : List Any) :
    Pkg → Except Fault Pkg :=
  onDefault (Logger.deliverRecordExtToWriter env amb ext NEVERShow fmt args)

def ErrorExtF (env : Env) (amb : Ambient) (ext : Any) (fmt : String) (args : List Any) :
    Pkg → Except Fault Pkg :=
  onDefault (Logger.deliverRecordExtToWriter env amb ext ERROR fmt args)

def FatalExtF (env : Env) (amb : Ambient) (ext : Any) (fmt : String) (args : List Any) :
    Pkg → Except Fault Pkg :=
  onDefault (Logger.deliverRecordExtToWriter env amb ext FATAL fmt args)

/-- A call of one of the package-level functions other than `NewLogger`. -/
inductive Facade where
  | SetLevel (lvl : Int)
  | SetLayout (layout : String)
  | Register (w : Writer)
  | Close (sched : List Sel)
  | Debug (amb : Ambient) (args : List Any)
  | Warn (amb : Ambient) (args : List Any)
  | Info (amb : Ambient) (args : List Any)
  | Error (amb : Ambient) (args : List Any)
  | Fatal (amb : Ambient) (args : List Any)
  | DebugF (amb : Ambient) (fmt : String) (args : List Any)
  | WarnF (amb : Ambient) (fmt : String) (args : List Any)
  | InfoF (amb : Ambient) (fmt : String) (args : List Any)
  | InfoFNL (amb : Ambient) (fmt : String) (args : List Any)
  | ErrorF (amb : Ambient) (fmt : String) (args : List Any)
  | FatalF (amb : Ambient) (fmt : String) (args : List Any)
  | DebugExtF (amb : Ambient) (ext : Any) (fmt : String) (args : List Any)
  | WarnExtF (amb : Ambient) (ext : Any) (fmt : String) (args : List Any)
  | InfoExtF (amb : Ambient) (ext : Any) (fmt : String) (args : List Any)
  | NeverShowF (amb : Ambient) (ext : Any) (fmt : String) (args : List Any)
  | ErrorExtF (amb : Ambient) (ext : Any) (fmt : String) (args : List Any)
  | FatalExtF (amb : Ambient) (ext : Any) (fmt : String) (args : List Any)

def Facade.call (env : Env) : Facade → Pkg → Except Fault Pkg
  | .SetLevel lvl => Log4go.SetLevel lvl
  | .SetLayout layout => Log4go.SetLayout layout
  | .Register w => Log4go.Register w
  | .Close sched => Log4go.Close env sched
  | .Debug amb args => Log4go.Debug env amb args
  | .Warn amb args => Log4go.Warn env amb args
  | .Info amb args => Log4go.Info env amb args
  | .Error amb args => Log4go.Error env amb args
  | .Fatal amb args => Log4go.Fatal env amb args
  | .DebugF amb fmt args => Log4go.DebugF env amb fmt args
  | .WarnF amb fmt args => Log4go.WarnF env amb fmt args
  | .InfoF amb fmt args => Log4go.InfoF env amb fmt args
  | .InfoFNL amb fmt args => Log4go.InfoFNL env amb fmt args
  | .ErrorF amb fmt args => Log4go.ErrorF env amb fmt args
  | .FatalF amb fmt args => Log4go.FatalF env amb fmt args
  | .DebugExtF amb ext fmt args => Log4go.DebugExtF env amb ext fmt args
  | .WarnExtF amb ext fmt args => Log4go.WarnExtF env amb ext fmt args
  | .InfoExtF amb ext fmt args => Log4go.InfoExtF env amb ext fmt args
  | .NeverShowF amb ext fmt args => Log4go.NeverShowF env amb ext fmt args
  | .ErrorExtF amb ext fmt args => Log4go.ErrorExtF env amb ext fmt args
  | .FatalExtF amb ext fmt args => Log4go.FatalExtF env amb ext fmt args

/-- The method a package-level function calls on `logger_default`, with the arguments
it passes on. -/
def Facade.method (env : Env) : Facade → Sys → Except Fault Sys
  | .SetLevel lvl => fun s => .ok (Logger.SetLevel lvl s)
  | .SetLayout layout => fun s => .ok (Logger.SetLayout layout s)
  | .Register w => Logger.Register w
  | .Close sched => Logger.Close env sched
  | .Debug amb args => Logger.deliverRecordToWriter env amb DEBUG "" args
  | .Warn amb args => Logger.deliverRecordToWriter env amb WARNING "" args
  | .Info amb args => Logger.deliverRecordToWriter env amb INFO "" args
  | .Error amb args => Logger.deliverRecordToWriter env amb ERROR "" args
  | .Fatal amb args => Logger.deliverRecordToWriter env amb FATAL "" args
  | .DebugF amb fmt args => Logger.deliverRecordToWriter env amb DEBUG fmt args
  | .WarnF amb fmt args => Logger.deliverRecordToWriter env amb WARNING fmt args
  | .InfoF amb fmt args => Logger.deliverRecordToWriter env amb INFO fmt args
  | .InfoFNL amb fmt args => Logger.deliverRecordToWriterCodeLine env amb INFO fmt false args
  | .ErrorF amb fmt args => Logger.deliverRecordToWriter env amb ERROR fmt args
  | .FatalF amb fmt args => Logger.deliverRecordToWriter env amb FATAL fmt args
  | .DebugExtF amb ext fmt args => Logger.deliverRecordExtToWriter env amb ext DEBUG fmt args
  | .WarnExtF amb ext fmt args => Logger.deliverRecordExtToWriter env amb ext WARNING fmt args
  | .InfoExtF amb ext fmt args => Logger.deliverRecordExtToWriter env amb ext INFO fmt args
  | .NeverShowF amb ext fmt args =>
    Logger.deliverRecordExtToWriter env amb ext NEVERShow fmt args
  | .ErrorExtF amb ext fmt args => Logger.deliverRecordExtToWriter env amb ext ERROR fmt args
  | .FatalExtF amb ext fmt args => Logger.deliverRecordExtToWriter env amb ext FATAL fmt args

/-- What a program does with the package: construct loggers, call the facade, call a
method on a logger it holds, and let a dispatch goroutine take a step. -/
inductive PkgOp where
  | NewLogger
  | facade (f : Facade)
  | method (l : Nat) (op : Op)

def PkgOp.exec (env : Env) : PkgOp → Pkg → Except Fault Pkg
  | .NewLogger, p => .ok (Log4go.NewLogger p).2
  | .facade f, p => f.call env p
  | .method l op, p => onLogger l (Log4go.exec env op) p

def PkgOp.run (env : Env) : List PkgOp → Pkg → Except Fault Pkg
  | [], p => .ok p
  | op :: ops, p =>
    match op.exec env p with
    | .error e => .error e
    | .ok p1 => PkgOp.run env ops p1

def PkgOp.isNewLogger : PkgOp → Bool
  | .NewLogger => true
  | _ => false


/-- The pointers returned by `n` successive calls of `NewLogger`, first call first,
and the package state left. -/
def newLoggers : Nat → Pkg → List Nat × Pkg
  | 0, p => ([], p)
  | n + 1, p =>
    let r := NewLogger p
    let rest := newLoggers n r.2
    (r.1 :: rest.1, rest.2)

/-! ## Reading traces, and a concrete environment -/

/-- The records sent on the tunnel, in order. -/
def sends : List Action → List Record
  | [] => []
  | .Send r :: tr => r :: sends tr
  | _ :: tr => sends tr

/-- The records handed out by the pool, in order. -/
def gets : List Action → List Record
  | [] => []
  | .Get r :: tr => r :: gets tr
  | _ :: tr => gets tr

/-- The `Write` calls, in order: writer position and record. -/
def writes : List Action → List (Nat × Record)
  | [] => []
  | .Write i r :: tr => (i, r) :: writes tr
  | _ :: tr => writes tr

/-- The `Flush` calls, in order: writer position. -/
def flushes : List Action → List Nat
  | [] => []
  | .Flush i :: tr => i :: flushes tr
  | _ :: tr => flushes tr

/-- The records returned to the pool, in order. -/
def puts : List Action → List Record
  | [] => []
  | .Put r :: tr => r :: puts tr
  | _ :: tr => puts tr

/-- The layouts the timestamp was formatted with, in order. -/
def formats : List Action → List (GoTime × String)
  | [] => []
  | .Format t layout :: tr => (t, layout) :: formats tr
  | _ :: tr => formats tr

/-- Every record to every one of `n` writers: records in the given order, and for
each record the writers `0, 1, ..., n - 1`. -/
def fanOutAll (n : Nat) : List Record → List (Nat × Record)
  | [] => []
  | r :: rs => (List.range n).map (fun i => (i, r)) ++ fanOutAll n rs

/-- Positions of the writers that implement `Flusher`, counted from `i`. -/
def flusherIdx : Nat → List Writer → List Nat
  | _, [] => []
  | i, w :: ws => if w.isFlusher then i :: flusherIdx (i + 1) ws else flusherIdx (i + 1) ws

/-- Default formatting of an operand (`%v`). -/
def Any.text : Any → String
  | .nil => "<nil>"
  | .str s => s
  | .int i => toString i
  | .bool b => if b then "true" else "false"

def Any.isStr : Any → Bool
  | .str _ => true
  | _ => false

/-- The function `fmt.Sprint`: operands in default format, a space between two
operands when neither is a string. -/
def sprintAny : List Any → String
  | [] => ""
  | [a] => a.text
  | a :: b :: rest =>
    a.text ++ (if !a.isStr && !b.isStr then " " else "") ++ sprintAny (b :: rest)

/-- An environment for running examples: UTC clock formatting, `Sprintf` as embedded
above for string operands, and writers that return the errors `fails` says. -/
def utcEnv (fails : List Action → Bool) : Env :=
  { Sprintf := fun format args =>
      match sprintfS format (args.map Any.text) with
      | .ok s => s
      | .error _ => ""
    Sprint := sprintAny
    Format := formatUTC
    fails := fails }

/-- The ambient and level of an emit operation. -/
def Op.emit? : Op → Option (Ambient × Int)
  | .deliver amb level _ _ _ => some (amb, level)
  | .deliverExt amb _ level _ _ => some (amb, level)
  | _ => none

def Op.isRegister : Op → Bool
  | .Register _ => true
  | _ => false

def Op.isSetLayout : Op → Bool
  | .SetLayout _ => true
  | _ => false


/-- What holds of a logger with writers `ws` whose writer list no longer changes:
the `Write` calls made so far, followed by those still owed to the queued
records, are the fan-out of everything sent; once the goroutine has returned
the tunnel is closed and empty; and the signal on `c` is only there when the
goroutine has returned. -/
def Drains (ws : List Writer) (s : Sys) : Prop :=
  s.logger.writers = ws ∧
  writes s.trace ++ fanOutAll ws.length s.logger.tunnel.buf
    = fanOutAll ws.length (sends s.trace) ∧
  (s.phase = .done → s.logger.tunnel.buf = [] ∧ s.logger.tunnel.closed = true) ∧
  (s.logger.c ≠ [] → s.phase = .done)


/-- The completion signal is on `c` only when the dispatch goroutine has returned, and
the goroutine returns only from a closed tunnel. -/
def Quiet (s : Sys) : Prop :=
  (s.logger.c ≠ [] → s.phase = .done) ∧ (s.phase = .done → s.logger.tunnel.closed = true)

/-! ## Concrete loggers for the examples -/

/-- A writer like `ConsoleWriter`: `Init` succeeds, no `Flush`, no `Rotate`. -/
def consoleWriter : Writer :=
  { name := "console", initErr := false, isFlusher := false, isRotater := false }

/-- A writer that also implements `Flusher` and `Rotater`. -/
def fileWriter : Writer :=
  { name := "file", initErr := false, isFlusher := true, isRotater := true }

/-- An emit at the given instant, called from `main.go:42`, the pool handing out its
`pick`-th record. -/
def ambAt (sec : Int) (nsec : Nat) (pick : Nat) : Ambient :=
  { now := { sec := sec, nsec := nsec }, caller := some ("/src/app/main.go", 42), pick := pick }

/-- The record of the call `Warn("y")` made at 2023-11-14 22:13:20 UTC. -/
def warnRecord : Record :=
  { Time := "2023-11-14 22:13:20", Code := "main.go:42", Info := "y", Level := 3, Ext := .nil }

/-- The record of the call `Error("z")` made a second later. -/
def errorRecord : Record :=
  { Time := "2023-11-14 22:13:21", Code := "main.go:42", Info := "z", Level := 4, Ext := .nil }

/-- The result of a run that is known to return. -/
def stateOf (r : Except Fault Sys) : Sys :=
  match r with
  | .ok s => s
  | .error _ => Sys.new []

/-- Two writers, floor WARNING, then `Debug("x")`, `Warn("y")`, `Error("z")`. -/
def scenarioOps : List Op :=
  [ .SetLevel WARNING,
    .deliver (ambAt 1700000000 0 0) DEBUG "" true [.str "x"],
    .deliver (ambAt 1700000000 100 0) WARNING "" true [.str "y"],
    .deliver (ambAt 1700000001 0 0) ERROR "" true [.str "z"] ]


/-- The scenario on a new logger with a console and a file writer, after the
goroutine has taken the first record and the tunnel has been closed. -/
def scenarioClosed : Sys :=
  stateOf (run (utcEnv fun _ => true)
    ([consoleWriter, fileWriter].map Op.Register ++ (scenarioOps ++ [.step .tunnel, .closeTunnel]))
    (Sys.new []))

/-- The scenario before anything is dispatched or closed. -/
def scenarioOpen : Sys :=
  stateOf (run (utcEnv fun _ => true)
    ([Op.Register consoleWriter, Op.Register fileWriter] ++ scenarioOps) (Sys.new []))

/-- The state `Close` leaves on `scenarioOpen` when the goroutine is scheduled as given. -/
def scenarioAfterClose : Sys :=
  stateOf (Logger.Close (utcEnv fun _ => true) [.tunnel, .flushTimer, .tunnel, .tunnel]
    scenarioOpen)

/-- A new logger after one accepted emit at second 1700000000. -/
def afterFirstEmit : Sys :=
  stateOf (exec (utcEnv fun _ => false)
    (.deliver (ambAt 1700000000 0 0) INFO "" true [.str "a"]) (Sys.new []))

/-- What runs between the two accepted emits: the goroutine takes the first record,
a writer is registered, the floor and the layout are changed, an emit below
the floor is rejected, and the flush timer fires. -/
def betweenEmits : List Op :=
  [ .step .tunnel, .Register fileWriter, .SetLevel WARNING, .SetLayout "15:04:05",
    .deliver (ambAt 1700000000 500 0) DEBUG "" true [.str "dropped"], .step .flushTimer ]

/-- The logger of `afterFirstEmit` after the operations `betweenEmits`. -/
def afterBetween : Sys :=
  stateOf (run (utcEnv fun _ => false) betweenEmits afterFirstEmit)

/-- The same logger after a second accepted emit, one second after the first. -/
def afterSecondEmit : Sys :=
  stateOf (exec (utcEnv fun _ => false)
    (.deliverExt (ambAt 1700000001 0 0) (.str "req-7") WARNING "%s" [.str "b"]) afterBetween)

/-- A new logger on which `Close` has returned. -/
def closedLogger : Sys :=
  stateOf (Logger.Close (utcEnv fun _ => false) [.tunnel] (Sys.new []))

/-- A new logger whose layout was set to the time of day, after one accepted emit. -/
def afterLayoutAndEmit : Sys :=
  stateOf (run (utcEnv fun _ => false)
    [.deliver (ambAt 1700000000 0 0) INFO "" true [.str "a"]]
    (Logger.SetLayout "15:04:05" (Sys.new [])))

/-- The logger of `afterLayoutAndEmit` after a further accepted emit in the next second. -/
def afterLayoutAndTwoEmits : Sys :=
  stateOf (exec (utcEnv fun _ => false)
    (.deliver (ambAt 1700000001 0 0) INFO "" true [.str "b"]) afterLayoutAndEmit)

/-- A logger whose goroutine is inside its loop, with an empty tunnel and an empty pool. -/
def looping : Sys :=
  stateOf (run (utcEnv fun _ => false)
    [.Register consoleWriter, .deliver (ambAt 1700000000 0 0) INFO "" true [.str "a"],
     .step .tunnel] (Sys.new []))

/-- Package operations: two calls of `NewLogger` with facade calls in between. -/
def twoLoggers : List PkgOp :=
  [.NewLogger, .facade (.Register consoleWriter), .NewLogger, .facade (.SetLevel ERROR)]

def pkgOf (r : Except Fault Pkg) : Pkg :=
  match r with
  | .ok p => p
  | .error _ => Pkg.zero

def afterTwoLoggers : Pkg :=
  pkgOf (PkgOp.run (utcEnv fun _ => false) twoLoggers (init Pkg.zero))


/-! ## Lemmas on the emit path -/

theorem sprintfS_record (t f c i : String) :
    sprintfS "%s \t [%s] \t <%s>  \t %s\n" [t, f, c, i]
      = .ok (t ++ " \t [" ++ f ++ "] \t <" ++ c ++ ">  \t " ++ i ++ "\n") := by
  simp [sprintfS, sprintfChars, Functor.map, Except.map]
  apply String.ext
  simp [String.data_append]

theorem refreshTime_tunnel (env : Env) (now : GoTime) (s : Sys) :
    (refreshTime env now s).logger.tunnel = s.logger.tunnel := by
  unfold refreshTime; split <;> rfl

theorem refreshTime_pool (env : Env) (now : GoTime) (s : Sys) :
    (refreshTime env now s).pool = s.pool := by
  unfold refreshTime; split <;> rfl

theorem refreshTime_level (env : Env) (now : GoTime) (s : Sys) :
    (refreshTime env now s).logger.level = s.logger.level := by
  unfold refreshTime; split <;> rfl

theorem refreshTime_layout (env : Env) (now : GoTime) (s : Sys) :
    (refreshTime env now s).logger.layout = s.logger.layout := by
  unfold refreshTime; split <;> rfl

theorem refreshTime_writers (env : Env) (now : GoTime) (s : Sys) :
    (refreshTime env now s).logger.writers = s.logger.writers := by
  unfold refreshTime; split <;> rfl

theorem refreshTime_c (env : Env) (now : GoTime) (s : Sys) :
    (refreshTime env now s).logger.c = s.logger.c := by
  unfold refreshTime; split <;> rfl

theorem refreshTime_phase (env : Env) (now : GoTime) (s : Sys) :
    (refreshTime env now s).phase = s.phase := by
  unfold refreshTime; split <;> rfl

theorem refreshTime_lastTime (env : Env) (now : GoTime) (s : Sys) :
    (refreshTime env now s).logger.lastTime = now.Unix := by
  unfold refreshTime; split
  · rfl
  · rename_i h; simp only [ne_eq, not_not] at h; exact h.symm

theorem refreshTime_same (env : Env) (now : GoTime) (s : Sys)
    (h : now.Unix = s.logger.lastTime) : refreshTime env now s = s := by
  unfold refreshTime; simp [h]

theorem refreshTime_str_of_ne (env : Env) (now : GoTime) (s : Sys)
    (h : now.Unix ≠ s.logger.lastTime) :
    (refreshTime env now s).logger.lastTimeStr = env.Format now s.logger.layout ∧
      (refreshTime env now s).trace = s.trace ++ [.Format now s.logger.layout] := by
  unfold refreshTime; simp [h]

/-- The record built by the plain emit from the record `r0` taken from the pool. -/
theorem deliver_accept (env : Env) (amb : Ambient) (level : Int) (format : String)
    (codeLine : Bool) (args : List Any) (s : Sys)
    (hlvl : s.logger.level ≤ level) (hopen : s.logger.tunnel.closed = false) :
    Logger.deliverRecordToWriterCodeLine env amb level format codeLine args s =
      .ok { refreshTime env amb.now s with
        logger := { (refreshTime env amb.now s).logger with
          tunnel := { s.logger.tunnel with
            buf := s.logger.tunnel.buf ++
              [{ (poolGet s.pool amb.pick).1 with
                  Info := if format ≠ "" then env.Sprintf format args else env.Sprint args
                  Code := if codeLine then codeOf amb.caller else ""
                  Time := (refreshTime env amb.now s).logger.lastTimeStr
                  Level := level }] } }
        pool := (poolGet s.pool amb.pick).2
        trace := (refreshTime env amb.now s).trace ++
          [.Get (poolGet s.pool amb.pick).1,
           .Send { (poolGet s.pool amb.pick).1 with
                  Info := if format ≠ "" then env.Sprintf format args else env.Sprint args
                  Code := if codeLine then codeOf amb.caller else ""
                  Time := (refreshTime env amb.now s).logger.lastTimeStr
                  Level := level }] } := by
  unfold Logger.deliverRecordToWriterCodeLine
  simp only [not_lt.mpr hlvl, if_false, Chan.send, refreshTime_tunnel, refreshTime_pool, hopen]
  rfl
/-- The record built by the extended emit from the record `r0` taken from the pool. -/
theorem deliverExt_accept (env : Env) (amb : Ambient) (ext : Any) (level : Int)
    (format : String) (args : List Any) (s : Sys)
    (hlvl : s.logger.level ≤ level) (hopen : s.logger.tunnel.closed = false) :
    Logger.deliverRecordExtToWriter env amb ext level format args s =
      .ok { refreshTime env amb.now s with
        logger := { (refreshTime env amb.now s).logger with
          tunnel := { s.logger.tunnel with
            buf := s.logger.tunnel.buf ++
              [{ (poolGet s.pool amb.pick).1 with
                  Info := if format ≠ "" then env.Sprintf format args else env.Sprint args
                  Code := codeOf amb.caller
                  Time := (refreshTime env amb.now s).logger.lastTimeStr
                  Level := level
                  Ext := ext }] } }
        pool := (poolGet s.pool amb.pick).2
        trace := (refreshTime env amb.now s).trace ++
          [.Get (poolGet s.pool amb.pick).1,
           .Send { (poolGet s.pool amb.pick).1 with
                  Info := if format ≠ "" then env.Sprintf format args else env.Sprint args
                  Code := codeOf amb.caller
                  Time := (refreshTime env amb.now s).logger.lastTimeStr
                  Level := level
                  Ext := ext }] } := by
  unfold Logger.deliverRecordExtToWriter
  simp only [not_lt.mpr hlvl, if_false, Chan.send, refreshTime_tunnel, refreshTime_pool, hopen]
  rfl

theorem deliver_reject (env : Env) (amb : Ambient) (level : Int) (format : String)
    (codeLine : Bool) (args : List Any) (s : Sys) (hlvl : level < s.logger.level) :
    Logger.deliverRecordToWriterCodeLine env amb level format codeLine args s = .ok s := by
  unfold Logger.deliverRecordToWriterCodeLine
  simp [hlvl]

theorem deliverExt_reject (env : Env) (amb : Ambient) (ext : Any) (level : Int)
    (format : String) (args : List Any) (s : Sys) (hlvl : level < s.logger.level) :
    Logger.deliverRecordExtToWriter env amb ext level format args s = .ok s := by
  unfold Logger.deliverRecordExtToWriter
  simp [hlvl]

theorem sends_append (a b : List Action) : sends (a ++ b) = sends a ++ sends b := by
  induction a with
  | nil => rfl
  | cons x xs ih => cases x <;> simp [sends, ih]

theorem gets_append (a b : List Action) : gets (a ++ b) = gets a ++ gets b := by
  induction a with
  | nil => rfl
  | cons x xs ih => cases x <;> simp [gets, ih]

theorem writes_append (a b : List Action) : writes (a ++ b) = writes a ++ writes b := by
  induction a with
  | nil => rfl
  | cons x xs ih => cases x <;> simp [writes, ih]

theorem flushes_append (a b : List Action) : flushes (a ++ b) = flushes a ++ flushes b := by
  induction a with
  | nil => rfl
  | cons x xs ih => cases x <;> simp [flushes, ih]

theorem puts_append (a b : List Action) : puts (a ++ b) = puts a ++ puts b := by
  induction a with
  | nil => rfl
  | cons x xs ih => cases x <;> simp [puts, ih]

theorem formats_append (a b : List Action) : formats (a ++ b) = formats a ++ formats b := by
  induction a with
  | nil => rfl
  | cons x xs ih => cases x <;> simp [formats, ih]

theorem refreshTime_sends (env : Env) (now : GoTime) (s : Sys) :
    sends (refreshTime env now s).trace = sends s.trace := by
  unfold refreshTime; split
  · simp [sends_append, sends]
  · rfl

theorem refreshTime_gets (env : Env) (now : GoTime) (s : Sys) :
    gets (refreshTime env now s).trace = gets s.trace := by
  unfold refreshTime; split
  · simp [gets_append, gets]
  · rfl

/-! ## The level filter and the record format -/

/-- C1 (amended). An emit call whose level is below the floor returns with the whole
state as it was: nothing is pushed, no record is taken from the pool, and the
timestamp cache is untouched. An emit call whose level reaches the floor, on a
tunnel that has not been closed, takes one record from the pool and pushes
exactly one record, whose `Level` is the level given. On a closed tunnel an
emit call whose level reaches the floor panics at the send and returns no
state. This holds for both emit functions, every state, level, format and
operand list. -/
theorem emit_pushes_iff_level_reaches_floor (env : Env) (amb : Ambient) (ext : Any)
    (level : Int) (format : String) (codeLine : Bool) (args : List Any) (s : Sys) :
    (level < s.logger.level →
      Logger.deliverRecordToWriterCodeLine env amb level format codeLine args s = .ok s ∧
      Logger.deliverRecordExtToWriter env amb ext level format args s = .ok s) ∧
    (s.logger.level ≤ level → s.logger.tunnel.closed = false →
      (∃ s1 r, Logger.deliverRecordToWriterCodeLine env amb level format codeLine args s
            = .ok s1 ∧
          r.Level = level ∧
          s1.logger.tunnel.buf = s.logger.tunnel.buf ++ [r] ∧
          sends s1.trace = sends s.trace ++ [r] ∧
          gets s1.trace = gets s.trace ++ [(poolGet s.pool amb.pick).1]) ∧
      (∃ s2 r, Logger.deliverRecordExtToWriter env amb ext level format args s = .ok s2 ∧
          r.Level = level ∧
          s2.logger.tunnel.buf = s.logger.tunnel.buf ++ [r] ∧
          sends s2.trace = sends s.trace ++ [r] ∧
          gets s2.trace = gets s.trace ++ [(poolGet s.pool amb.pick).1])) ∧
    (s.logger.level ≤ level → s.logger.tunnel.closed = true →
      Logger.deliverRecordToWriterCodeLine env amb level format codeLine args s
        = .error (.panic "send on closed channel") ∧
      Logger.deliverRecordExtToWriter env amb ext level format args s
        = .error (.panic "send on closed channel")) := by
  refine ⟨fun h => ⟨deliver_reject env amb level format codeLine args s h,
    deliverExt_reject env amb ext level format args s h⟩, fun hlvl hopen => ⟨?_, ?_⟩,
    fun hlvl hclosed => ⟨?_, ?_⟩⟩
  rotate_left 2
  · unfold Logger.deliverRecordToWriterCodeLine
    simp [not_lt.mpr hlvl, Chan.send, refreshTime_tunnel, hclosed]
  · unfold Logger.deliverRecordExtToWriter
    simp [not_lt.mpr hlvl, Chan.send, refreshTime_tunnel, hclosed]
  · refine ⟨_, _, deliver_accept env amb level format codeLine args s hlvl hopen, rfl, rfl, ?_, ?_⟩
    · simp [sends_append, sends, refreshTime_sends]
    · simp [gets_append, gets, refreshTime_gets]
  · refine ⟨_, _, deliverExt_accept env amb ext level format args s hlvl hopen, rfl, rfl, ?_, ?_⟩
    · simp [sends_append, sends, refreshTime_sends]
    · simp [gets_append, gets, refreshTime_gets]

/-- C6. For a record whose `Level` is one of the six severities, `String` returns the
time, the name of the level in square brackets, the code in angle brackets and
the message, separated as in the format string and ended by a newline; the
names for levels 0 to 5 are DEBUG, INFO, NEVERShow, WARN, ERROR, FATAL. -/
theorem Record_String_layout (r : Record) (name : String)
    (h : (r.Level, name) ∈ [((0 : Int), "DEBUG"), (1, "INFO"), (2, "NEVERShow"),
      (3, "WARN"), (4, "ERROR"), (5, "FATAL")]) :
    LEVEL_FLAGS.get? r.Level.toNat = some name ∧
    r.String = .ok (r.Time ++ " \t [" ++ name ++ "] \t <" ++ r.Code ++ ">  \t "
      ++ r.Info ++ "\n") := by
  simp only [List.mem_cons, Prod.mk.injEq, List.mem_singleton, List.not_mem_nil, or_false] at h
  rcases h with h | h | h | h | h | h <;> obtain ⟨hl, hn⟩ := h <;> subst hn <;>
    simp [Record.String, levelFlag, hl, LEVEL_FLAGS, sprintfS_record]


theorem fanOut_writes (env : Env) (r : Record) (ws : List Writer) :
    ∀ (i : Nat) (tr : List Action),
      writes (fanOut env r i ws tr) = writes tr ++ (List.range' i ws.length).map (fun j => (j, r)) := by
  induction ws with
  | nil => intro i tr; simp [fanOut]
  | cons w ws ih =>
    intro i tr
    simp only [fanOut, ih, List.length_cons, List.range'_succ, List.map_cons]
    split <;> simp [writes_append, writes]

theorem fanOut_sends (env : Env) (r : Record) (ws : List Writer) :
    ∀ (i : Nat) (tr : List Action), sends (fanOut env r i ws tr) = sends tr := by
  induction ws with
  | nil => intro i tr; simp [fanOut]
  | cons w ws ih =>
    intro i tr
    simp only [fanOut, ih]
    split <;> simp [sends_append, sends]

theorem fanOut_puts (env : Env) (r : Record) (ws : List Writer) :
    ∀ (i : Nat) (tr : List Action), puts (fanOut env r i ws tr) = puts tr := by
  induction ws with
  | nil => intro i tr; simp [fanOut]
  | cons w ws ih =>
    intro i tr
    simp only [fanOut, ih]
    split <;> simp [puts_append, puts]

theorem flushAll_writes (env : Env) (ws : List Writer) :
    ∀ (i : Nat) (tr : List Action), writes (flushAll env i ws tr) = writes tr := by
  induction ws with
  | nil => intro i tr; simp [flushAll]
  | cons w ws ih =>
    intro i tr
    simp only [flushAll]
    split
    · rw [ih]; split <;> simp [writes_append, writes]
    · rw [ih]

theorem flushAll_sends (env : Env) (ws : List Writer) :
    ∀ (i : Nat) (tr : List Action), sends (flushAll env i ws tr) = sends tr := by
  induction ws with
  | nil => intro i tr; simp [flushAll]
  | cons w ws ih =>
    intro i tr
    simp only [flushAll]
    split
    · rw [ih]; split <;> simp [sends_append, sends]
    · rw [ih]

theorem flushAll_flushes (env : Env) (ws : List Writer) :
    ∀ (i : Nat) (tr : List Action),
      flushes (flushAll env i ws tr) = flushes tr ++ flusherIdx i ws := by
  induction ws with
  | nil => intro i tr; simp [flushAll, flusherIdx]
  | cons w ws ih =>
    intro i tr
    simp only [flushAll, flusherIdx]
    split
    · rw [ih]; split <;> simp [flushes_append, flushes]
    · rw [ih]

theorem rotateAll_writes (env : Env) (ws : List Writer) :
    ∀ (i : Nat) (tr : List Action), writes (rotateAll env i ws tr) = writes tr := by
  induction ws with
  | nil => intro i tr; simp [rotateAll]
  | cons w ws ih =>
    intro i tr
    simp only [rotateAll]
    split
    · rw [ih]; split <;> simp [writes_append, writes]
    · rw [ih]

theorem rotateAll_sends (env : Env) (ws : List Writer) :
    ∀ (i : Nat) (tr : List Action), sends (rotateAll env i ws tr) = sends tr := by
  induction ws with
  | nil => intro i tr; simp [rotateAll]
  | cons w ws ih =>
    intro i tr
    simp only [rotateAll]
    split
    · rw [ih]; split <;> simp [sends_append, sends]
    · rw [ih]

theorem fanOutAll_append (n : Nat) (a b : List Record) :
    fanOutAll n (a ++ b) = fanOutAll n a ++ fanOutAll n b := by
  induction a with
  | nil => rfl
  | cons x xs ih => simp [fanOutAll, ih]


theorem refreshTime_writes (env : Env) (now : GoTime) (s : Sys) :
    writes (refreshTime env now s).trace = writes s.trace := by
  unfold refreshTime; split
  · simp [writes_append, writes]
  · rfl

theorem emit_effect (env : Env) (op : Op) (s s1 : Sys) (amb : Ambient) (level : Int)
    (he : op.emit? = some (amb, level)) (h : exec env op s = .ok s1) :
    (level < s.logger.level ∧ s1 = s) ∨
    (s.logger.level ≤ level ∧ s.logger.tunnel.closed = false ∧
      ∃ r, r.Level = level ∧ r.Time = (refreshTime env amb.now s).logger.lastTimeStr ∧
        s1 = { refreshTime env amb.now s with
          logger := { (refreshTime env amb.now s).logger with
            tunnel := { s.logger.tunnel with buf := s.logger.tunnel.buf ++ [r] } }
          pool := (poolGet s.pool amb.pick).2
          trace := (refreshTime env amb.now s).trace ++
            [.Get (poolGet s.pool amb.pick).1, .Send r] }) := by
  cases op with
  | deliver a l f cl args =>
    simp only [Op.emit?, Option.some.injEq, Prod.mk.injEq] at he
    obtain ⟨rfl, rfl⟩ := he
    simp only [exec] at h
    by_cases hl : l < s.logger.level
    · left
      rw [deliver_reject env a l f cl args s hl] at h
      exact ⟨hl, by injection h with h; exact h.symm⟩
    · right
      have hl2 : s.logger.level ≤ l := not_lt.mp hl
      cases hc : s.logger.tunnel.closed with
      | true =>
        unfold Logger.deliverRecordToWriterCodeLine at h
        simp [hl, Chan.send, refreshTime_tunnel, hc] at h
      | false =>
        rw [deliver_accept env a l f cl args s hl2 hc] at h
        injection h with h
        exact ⟨hl2, rfl, _, rfl, rfl, h.symm⟩
  | deliverExt a e l f args =>
    simp only [Op.emit?, Option.some.injEq, Prod.mk.injEq] at he
    obtain ⟨rfl, rfl⟩ := he
    simp only [exec] at h
    by_cases hl : l < s.logger.level
    · left
      rw [deliverExt_reject env a e l f args s hl] at h
      exact ⟨hl, by injection h with h; exact h.symm⟩
    · right
      have hl2 : s.logger.level ≤ l := not_lt.mp hl
      cases hc : s.logger.tunnel.closed with
      | true =>
        unfold Logger.deliverRecordExtToWriter at h
        simp [hl, Chan.send, refreshTime_tunnel, hc] at h
      | false =>
        rw [deliverExt_accept env a e l f args s hl2 hc] at h
        injection h with h
        exact ⟨hl2, rfl, _, rfl, rfl, h.symm⟩
  | _ => simp [Op.emit?] at he

theorem signalDone_writes (s : Sys) : writes (signalDone s).trace = writes s.trace := by
  unfold signalDone; split
  · simp [writes_append, writes]
  · rfl

theorem signalDone_sends (s : Sys) : sends (signalDone s).trace = sends s.trace := by
  unfold signalDone; split
  · simp [sends_append, sends]
  · rfl

theorem signalDone_logger (s : Sys) :
    (signalDone s).logger.writers = s.logger.writers ∧
    (signalDone s).logger.tunnel = s.logger.tunnel := by
  unfold signalDone; split <;> exact ⟨rfl, rfl⟩

theorem Drains_signalDone (ws : List Writer) (s : Sys) (h : Drains ws s)
    (hb : s.logger.tunnel.buf = []) (hc : s.logger.tunnel.closed = true) :
    Drains ws (signalDone s) := by
  obtain ⟨h1, h2, h3, h4⟩ := h
  refine ⟨by rw [(signalDone_logger s).1, h1], ?_, ?_, ?_⟩
  · rw [signalDone_writes, signalDone_sends, (signalDone_logger s).2]; exact h2
  · intro _; rw [(signalDone_logger s).2]; exact ⟨hb, hc⟩
  · unfold signalDone; split
    · intro _; rfl
    · exact h4

theorem Drains_step (env : Env) (ws : List Writer) (sel : Sel) (s : Sys) (h : Drains ws s) :
    Drains ws (boostrapLogWriter env sel s) := by
  have h' := h
  obtain ⟨h1, h2, h3, h4⟩ := h
  unfold boostrapLogWriter
  split
  · exact h'
  · rename_i hp
    split
    · rename_i hb
      split
      · rename_i hc; exact Drains_signalDone ws s h' hb hc
      · exact h'
    · rename_i r rest hb
      refine ⟨h1, ?_, ?_, ?_⟩
      · simp only [fanOut_sends, fanOut_writes, h1]
        rw [hb] at h2
        simp only [fanOutAll, ← List.range_eq_range'] at h2 ⊢
        simpa [List.append_assoc] using h2
      · intro hd; simp at hd
      · intro hcne; exact absurd (h4 hcne) (by rw [hp]; simp)
  · rename_i hp
    split
    · split
      · rename_i hb
        split
        · rename_i hc; exact Drains_signalDone ws s h' hb hc
        · exact h'
      · rename_i r rest hb
        refine ⟨h1, ?_, ?_, ?_⟩
        · simp only [writes_append, sends_append, fanOut_sends, fanOut_writes, h1, writes, sends]
          rw [hb] at h2
          simp only [fanOutAll, ← List.range_eq_range'] at h2 ⊢
          simpa [List.append_assoc] using h2
        · intro hd; rw [hp] at hd; simp at hd
        · intro hcne; exact absurd (h4 hcne) (by rw [hp]; simp)
    · refine ⟨h1, ?_, ?_, ?_⟩
      · simp only [flushAll_writes, flushAll_sends]; exact h2
      · intro hd; rw [hp] at hd; simp at hd
      · intro hcne; exact absurd (h4 hcne) (by rw [hp]; simp)
    · refine ⟨h1, ?_, ?_, ?_⟩
      · simp only [rotateAll_writes, rotateAll_sends]; exact h2
      · intro hd; rw [hp] at hd; simp at hd
      · intro hcne; exact absurd (h4 hcne) (by rw [hp]; simp)


theorem Drains_exec (env : Env) (ws : List Writer) (op : Op) (s s1 : Sys)
    (hreg : op.isRegister = false) (h : exec env op s = .ok s1) (hd : Drains ws s) :
    Drains ws s1 := by
  have hemit : ∀ amb level, op.emit? = some (amb, level) → Drains ws s1 := by
    intro amb level he
    rcases emit_effect env op s s1 amb level he h with ⟨_, rfl⟩ | ⟨_, hopen, r, _, _, rfl⟩
    · exact hd
    · obtain ⟨h1, h2, h3, h4⟩ := hd
      refine ⟨by simpa [refreshTime_writers] using h1, ?_, ?_, ?_⟩
      · simp only [writes_append, sends_append, writes, sends, refreshTime_writes,
          refreshTime_sends, fanOutAll_append, List.append_nil]
        rw [← h2, List.append_assoc]
      · intro hp
        simp only [refreshTime_phase] at hp
        have := (h3 hp).2
        rw [hopen] at this
        exact absurd this (by simp)
      · intro hc
        simp only [refreshTime_c] at hc
        simpa [refreshTime_phase] using h4 hc
  cases op with
  | Register w => simp [Op.isRegister] at hreg
  | SetLevel lvl =>
    simp only [exec, Except.ok.injEq] at h; subst h; exact hd
  | SetLayout layout =>
    simp only [exec, Except.ok.injEq] at h; subst h; exact hd
  | deliver amb level format codeLine args => exact hemit amb level rfl
  | deliverExt amb ext level format args => exact hemit amb level rfl
  | step sel =>
    simp only [exec, Except.ok.injEq] at h; subst h; exact Drains_step env ws sel s hd
  | closeTunnel =>
    simp only [exec, closeTunnel] at h
    split at h
    · simp at h
    · rename_i hc
      simp only [Except.ok.injEq] at h; subst h
      obtain ⟨h1, h2, h3, h4⟩ := hd
      refine ⟨h1, ?_, ?_, h4⟩
      · simpa [writes_append, sends_append, writes, sends] using h2
      · intro hp; exact ⟨(h3 hp).1, rfl⟩
  | closeFlush =>
    simp only [exec, closeFlush] at h
    split at h
    · simp at h
    · rename_i x c hc
      simp only [Except.ok.injEq] at h; subst h
      obtain ⟨h1, h2, h3, h4⟩ := hd
      refine ⟨h1, ?_, h3, ?_⟩
      · simpa [flushAll_writes, flushAll_sends] using h2
      · intro _; exact h4 (by rw [hc]; simp)

theorem Drains_run (env : Env) (ws : List Writer) (ops : List Op) :
    ∀ (s s1 : Sys), (∀ op ∈ ops, op.isRegister = false) → run env ops s = .ok s1 →
      Drains ws s → Drains ws s1 := by
  induction ops with
  | nil => intro s s1 _ h hd; simp only [run, Except.ok.injEq] at h; subst h; exact hd
  | cons op ops ih =>
    intro s s1 hreg h hd
    simp only [run] at h
    split at h
    · simp at h
    · rename_i s2 hs2
      exact ih s2 s1 (fun o ho => hreg o (List.mem_cons_of_mem _ ho)) h
        (Drains_exec env ws op s s2 (hreg op (List.mem_cons_self _ _)) hs2 hd)

theorem run_append (env : Env) (a b : List Op) :
    ∀ (s s1 : Sys), run env (a ++ b) s = .ok s1 →
      ∃ s0, run env a s = .ok s0 ∧ run env b s0 = .ok s1 := by
  induction a with
  | nil => intro s s1 h; exact ⟨s, rfl, h⟩
  | cons op ops ih =>
    intro s s1 h
    simp only [List.cons_append, run] at h ⊢
    split at h
    · simp at h
    · rename_i s2 hs2
      exact ih s2 s1 h

theorem run_register (env : Env) (ws : List Writer) :
    ∀ (s s1 : Sys), run env (ws.map Op.Register) s = .ok s1 →
      s1 = { s with logger := { s.logger with writers := s.logger.writers ++ ws } } := by
  induction ws with
  | nil => intro s s1 h; simp only [List.map_nil, run, Except.ok.injEq] at h; subst h; simp
  | cons w ws ih =>
    intro s s1 h
    simp only [List.map_cons, run, exec, Logger.Register] at h
    split at h
    · simp at h
    · rename_i s2 hs2
      split at hs2
      · simp at hs2
      · simp only [Except.ok.injEq] at hs2
        subst hs2
        rw [ih _ s1 h]
        simp

theorem Drains_registered (ws : List Writer) (pool : List Record) :
    Drains ws { Sys.new pool with logger := { Logger.new with writers := ws } } := by
  refine ⟨rfl, ?_, ?_, ?_⟩
  · simp [Sys.new, Proc.new, Logger.new, writes, sends, fanOutAll]
  · intro h; simp [Sys.new, Proc.new] at h
  · intro h; simp [Logger.new] at h

theorem boostrapLogWriter_done (env : Env) (sel : Sel) (s : Sys) (h : s.phase = .done) :
    boostrapLogWriter env sel s = s := by
  simp [boostrapLogWriter, h]


theorem dispatch_done (env : Env) (sched : List Sel) :
    ∀ (s : Sys), s.phase = .done → dispatch env sched s = s := by
  induction sched with
  | nil => intro s _; rfl
  | cons sel sched ih =>
    intro s h
    simp only [dispatch, List.foldl_cons]
    rw [boostrapLogWriter_done env sel s h]
    exact ih s h

theorem signalDone_phase (s : Sys) (h : Quiet s) (hc : s.logger.tunnel.closed = true) :
    Quiet (signalDone s) := by
  unfold signalDone; split
  · exact ⟨fun _ => rfl, fun _ => hc⟩
  · exact h

theorem Quiet_step (env : Env) (sel : Sel) (s : Sys) (h : Quiet s) :
    Quiet (boostrapLogWriter env sel s) := by
  unfold boostrapLogWriter
  split
  · exact h
  · rename_i hp
    split
    · split
      · rename_i hc; exact signalDone_phase s h hc
      · exact h
    · exact ⟨fun hc => absurd (h.1 hc) (by rw [hp]; simp), fun hd => by simp at hd⟩
  · rename_i hp
    split
    · split
      · split
        · rename_i hc; exact signalDone_phase s h hc
        · exact h
      · exact ⟨fun hc => absurd (h.1 hc) (by rw [hp]; simp), fun hd => by rw [hp] at hd; simp at hd⟩
    · exact ⟨fun hc => absurd (h.1 hc) (by rw [hp]; simp), fun hd => by rw [hp] at hd; simp at hd⟩
    · exact ⟨fun hc => absurd (h.1 hc) (by rw [hp]; simp), fun hd => by rw [hp] at hd; simp at hd⟩

theorem Quiet_dispatch (env : Env) (sched : List Sel) :
    ∀ (s : Sys), Quiet s → Quiet (dispatch env sched s) := by
  induction sched with
  | nil => intro s h; exact h
  | cons sel sched ih =>
    intro s h
    simp only [dispatch, List.foldl_cons]
    exact ih _ (Quiet_step env sel s h)

theorem Quiet_exec (env : Env) (op : Op) (s s1 : Sys) (h : exec env op s = .ok s1)
    (hq : Quiet s) : Quiet s1 := by
  have hemit : ∀ amb level, op.emit? = some (amb, level) → Quiet s1 := by
    intro amb level he
    rcases emit_effect env op s s1 amb level he h with ⟨_, rfl⟩ | ⟨_, hopen, r, _, _, rfl⟩
    · exact hq
    · refine ⟨?_, ?_⟩
      · intro hc
        simp only [refreshTime_c] at hc
        simpa [refreshTime_phase] using hq.1 hc
      · intro hp
        simp only [refreshTime_phase] at hp
        have := hq.2 hp
        rw [hopen] at this
        exact absurd this (by simp)
  cases op with
  | Register w =>
    simp only [exec, Logger.Register] at h
    split at h
    · simp at h
    · simp only [Except.ok.injEq] at h; subst h; exact hq
  | SetLevel lvl => simp only [exec, Except.ok.injEq] at h; subst h; exact hq
  | SetLayout layout => simp only [exec, Except.ok.injEq] at h; subst h; exact hq
  | deliver amb level format codeLine args => exact hemit amb level rfl
  | deliverExt amb ext level format args => exact hemit amb level rfl
  | step sel => simp only [exec, Except.ok.injEq] at h; subst h; exact Quiet_step env sel s hq
  | closeTunnel =>
    simp only [exec, closeTunnel] at h
    split at h
    · simp at h
    · simp only [Except.ok.injEq] at h; subst h; exact ⟨hq.1, fun _ => rfl⟩
  | closeFlush =>
    simp only [exec, closeFlush] at h
    split at h
    · simp at h
    · rename_i x c hc
      simp only [Except.ok.injEq] at h; subst h
      exact ⟨fun _ => hq.1 (by rw [hc]; simp), hq.2⟩

theorem Quiet_run (env : Env) (ops : List Op) :
    ∀ (s s1 : Sys), run env ops s = .ok s1 → Quiet s → Quiet s1 := by
  induction ops with
  | nil => intro s s1 h hq; simp only [run, Except.ok.injEq] at h; subst h; exact hq
  | cons op ops ih =>
    intro s s1 h hq
    simp only [run] at h
    split at h
    · simp at h
    · rename_i s2 hs2
      exact ih s2 s1 h (Quiet_exec env op s s2 hs2 hq)

theorem Quiet_new (pool : List Record) : Quiet (Sys.new pool) := by
  refine ⟨?_, ?_⟩
  · intro h; simp [Sys.new, Proc.new, Logger.new] at h
  · intro h; simp [Sys.new, Proc.new] at h

theorem Drains_Quiet (ws : List Writer) (s : Sys) (h : Drains ws s) : Quiet s :=
  ⟨h.2.2.2, fun hp => (h.2.2.1 hp).2⟩

theorem boostrapLogWriter_writers (env : Env) (sel : Sel) (s : Sys) :
    (boostrapLogWriter env sel s).logger.writers = s.logger.writers := by
  unfold boostrapLogWriter
  split
  · rfl
  · split
    · split
      · exact (signalDone_logger s).1
      · rfl
    · rfl
  · split
    · split
      · split
        · exact (signalDone_logger s).1
        · rfl
      · rfl
    · rfl
    · rfl

theorem dispatch_writers (env : Env) (sched : List Sel) :
    ∀ (s : Sys), (dispatch env sched s).logger.writers = s.logger.writers := by
  induction sched with
  | nil => intro s; rfl
  | cons sel sched ih =>
    intro s
    simp only [dispatch, List.foldl_cons]
    have := ih (boostrapLogWriter env sel s)
    simp only [dispatch] at this
    rw [this, boostrapLogWriter_writers]

/-- The goroutine returns only by way of the signal on `c`. -/
theorem dispatch_signals (env : Env) (sched : List Sel) :
    ∀ (s : Sys), s.phase ≠ .done → (dispatch env sched s).phase = .done →
      (dispatch env sched s).logger.c ≠ [] := by
  induction sched with
  | nil => intro s h1 h2; exact absurd h2 h1
  | cons sel sched ih =>
    intro s h1 h2
    simp only [dispatch, List.foldl_cons] at h2 ⊢
    by_cases hd : (boostrapLogWriter env sel s).phase = .done
    · have he := dispatch_done env sched _ hd
      simp only [dispatch] at he
      rw [he]
      have hsig : ∀ t : Sys, t.phase ≠ .done → (signalDone t).phase = .done →
          (signalDone t).logger.c ≠ [] := by
        intro t ht
        unfold signalDone
        split
        · intro _; simp
        · intro h; exact absurd h ht
      revert hd
      unfold boostrapLogWriter
      split
      · rename_i hp; exact fun _ => absurd hp h1
      · split
        · split
          · exact hsig s h1
          · intro h; exact absurd h h1
        · intro h; simp at h
      · rename_i hp
        split
        · split
          · split
            · exact hsig s h1
            · intro h; exact absurd h h1
          · intro h; rw [hp] at h; simp at h
        · intro h; rw [hp] at h; simp at h
        · intro h; rw [hp] at h; simp at h
    · exact ih _ hd h2

/-- Once the tunnel is closed, enough turns of the tunnel case make the goroutine
write what is queued and return. -/
theorem dispatch_terminates (env : Env) (sched : List Sel) :
    ∀ (s : Sys), Quiet s → s.logger.tunnel.closed = true →
      s.logger.tunnel.buf.length + 1 ≤ sched.count .tunnel →
      (dispatch env sched s).phase = .done := by
  induction sched with
  | nil => intro s _ _ h; simp at h
  | cons sel sched ih =>
    intro s hd hc hn
    simp only [dispatch, List.foldl_cons]
    have hd1 := Quiet_step env sel s hd
    by_cases hdone : (boostrapLogWriter env sel s).phase = .done
    · clear ih hn
      have : ∀ (t : Sys), t.phase = .done →
          (List.foldl (fun st sel => boostrapLogWriter env sel st) t sched).phase = .done := by
        induction sched with
        | nil => intro t ht; exact ht
        | cons x xs ihx =>
          intro t ht
          simp only [List.foldl_cons]
          rw [boostrapLogWriter_done env x t ht]
          exact ihx t ht
      exact this _ hdone
    · apply ih _ hd1
      · revert hdone
        unfold boostrapLogWriter
        split
        · intro _; exact hc
        · split
          · rw [if_pos hc]; intro _; rw [(signalDone_logger s).2]; exact hc
          · intro _; exact hc
        · split
          · split
            · rw [if_pos hc]; intro _; rw [(signalDone_logger s).2]; exact hc
            · intro _; exact hc
          · intro _; exact hc
          · intro _; exact hc
      · revert hdone
        unfold boostrapLogWriter
        split
        · rename_i hp; intro h; exact absurd hp h
        · rename_i hp
          split
          · rename_i hb
            rw [if_pos hc]
            intro h
            exfalso; apply h
            unfold signalDone
            have hcn : s.logger.c = [] := by
              by_contra hne
              have := hd.1 hne
              rw [hp] at this; simp at this
            simp [hcn]
          · rename_i r rest hb
            intro _
            rw [hb] at hn
            simp only [List.length_cons] at hn ⊢
            have := List.count_le_count_cons (a := Sel.tunnel) (b := sel) (l := sched)
            simp only [List.count_cons] at hn
            split at hn <;> omega
        · rename_i hp
          split
          · split
            · rename_i hb
              rw [if_pos hc]
              intro h
              exfalso; apply h
              unfold signalDone
              have hcn : s.logger.c = [] := by
                by_contra hne
                have := hd.1 hne
                rw [hp] at this; simp at this
              simp [hcn]
            · rename_i r rest hb
              intro _
              rw [hb] at hn
              simp only [List.length_cons, List.count_cons] at hn ⊢
              simp at hn
              omega
          · intro _
            simp only [List.count_cons] at hn
            simp at hn
            exact hn
          · intro _
            simp only [List.count_cons] at hn
            simp at hn
            exact hn


theorem boostrapLogWriter_sends (env : Env) (sel : Sel) (s : Sys) :
    sends (boostrapLogWriter env sel s).trace = sends s.trace := by
  unfold boostrapLogWriter
  split
  · rfl
  · split
    · split
      · exact signalDone_sends s
      · rfl
    · simp [fanOut_sends]
  · split
    · split
      · split
        · exact signalDone_sends s
        · rfl
      · simp [sends_append, fanOut_sends, sends]
    · simp [flushAll_sends]
    · simp [rotateAll_sends]

theorem dispatch_sends (env : Env) (sched : List Sel) :
    ∀ (s : Sys), sends (dispatch env sched s).trace = sends s.trace := by
  induction sched with
  | nil => intro s; rfl
  | cons sel sched ih =>
    intro s
    simp only [dispatch, List.foldl_cons]
    have := ih (boostrapLogWriter env sel s)
    simp only [dispatch] at this
    rw [this, boostrapLogWriter_sends]

theorem Drains_dispatch (env : Env) (ws : List Writer) (sched : List Sel) :
    ∀ (s : Sys), Drains ws s → Drains ws (dispatch env sched s) := by
  induction sched with
  | nil => intro s h; exact h
  | cons sel sched ih =>
    intro s h
    simp only [dispatch, List.foldl_cons]
    exact ih _ (Drains_step env ws sel s h)

theorem flusherIdx_enumFrom (ws : List Writer) :
    ∀ (i : Nat), flusherIdx i ws
      = ((ws.enumFrom i).filter (fun p => p.2.isFlusher)).map Prod.fst := by
  induction ws with
  | nil => intro i; rfl
  | cons w ws ih =>
    intro i
    simp only [flusherIdx, List.enumFrom_cons, List.filter_cons]
    split <;> simp [ih]

theorem flushAll_tail (env : Env) (ws : List Writer) :
    ∀ (i : Nat) (tr : List Action), ∃ tail, flushAll env i ws tr = tr ++ tail ∧
      ∀ a ∈ tail, (∃ j, a = .Flush j) ∨ a = .Println := by
  induction ws with
  | nil => intro i tr; exact ⟨[], by simp [flushAll], by simp⟩
  | cons w ws ih =>
    intro i tr
    simp only [flushAll]
    split
    · split
      · obtain ⟨tail, h1, h2⟩ := ih (i + 1) (tr ++ [.Flush i] ++ [.Println])
        refine ⟨[.Flush i, .Println] ++ tail, by rw [h1]; simp, ?_⟩
        intro a ha
        simp only [List.cons_append, List.nil_append, List.mem_cons] at ha
        rcases ha with rfl | rfl | ha
        · exact Or.inl ⟨i, rfl⟩
        · exact Or.inr rfl
        · exact h2 a ha
      · obtain ⟨tail, h1, h2⟩ := ih (i + 1) (tr ++ [.Flush i])
        refine ⟨[.Flush i] ++ tail, by rw [h1]; simp, ?_⟩
        intro a ha
        simp only [List.cons_append, List.nil_append, List.mem_cons] at ha
        rcases ha with rfl | ha
        · exact Or.inl ⟨i, rfl⟩
        · exact h2 a ha
    · exact ih (i + 1) tr

/-- C2. Register the writers `ws` on a new logger and then run any interleaving of
emits, steps of the dispatch goroutine, level and layout changes and the
closing of the tunnel, without further registration. At every moment the
`Write` calls made so far, followed by the calls still owed to the queued
records, are the fan-out of everything pushed: each record to writers
`0 .. n-1` in that order, records in push order. When the goroutine has
returned nothing is owed; and once the tunnel is closed, as soon as the tunnel
case of the `select` has been taken once more than there are queued records,
the goroutine has returned and the `Write` calls are exactly that fan-out,
whatever errors the calls return. -/
theorem dispatch_loop_fans_out_in_order (env : Env) (ws : List Writer) (pool : List Record)
    (ops : List Op) (s : Sys) (hreg : ∀ op ∈ ops, op.isRegister = false)
    (hrun : run env (ws.map Op.Register ++ ops) (Sys.new pool) = .ok s) :
    s.logger.writers = ws ∧
    writes s.trace ++ fanOutAll ws.length s.logger.tunnel.buf
      = fanOutAll ws.length (sends s.trace) ∧
    (s.phase = .done → writes s.trace = fanOutAll ws.length (sends s.trace)) ∧
    (s.logger.tunnel.closed = true → ∀ sched : List Sel,
      s.logger.tunnel.buf.length + 1 ≤ sched.count .tunnel →
        (dispatch env sched s).phase = .done ∧
        writes (dispatch env sched s).trace = fanOutAll ws.length (sends s.trace)) := by
  obtain ⟨s0, h0, h1⟩ := run_append env _ _ _ _ hrun
  have hs0 := run_register env ws _ _ h0
  have hd0 : Drains ws s0 := by
    rw [hs0]
    have := Drains_registered ws pool
    simpa [Sys.new, Proc.new, Logger.new] using this
  have hd : Drains ws s := Drains_run env ws ops s0 s hreg h1 hd0
  refine ⟨hd.1, hd.2.1, ?_, ?_⟩
  · intro hp
    have := hd.2.1
    rw [(hd.2.2.1 hp).1] at this
    simpa [fanOutAll] using this
  · intro hc sched hn
    have hdone := dispatch_terminates env sched s (Drains_Quiet ws s hd) hc hn
    have hdd := Drains_dispatch env ws sched s hd
    refine ⟨hdone, ?_⟩
    have := hdd.2.1
    rw [(hdd.2.2.1 hdone).1, dispatch_sends] at this
    simpa [fanOutAll] using this

/-- C3. On a logger reached from construction by any operations, when `Close` returns
the dispatch goroutine has returned and takes no further step, so no `Write`
follows; and what `Close` itself did after the goroutine's last action is one
`Flush` on every writer that implements `Flusher`, in registration order,
each followed by the logging of its error if it returned one, and no call on
any other writer. `Close` does return when the tunnel was not closed before
and the goroutine gets to take the tunnel case once more than there are
queued records. -/
theorem Close_flushes_after_dispatch_ended (env : Env) (pool : List Record) (ops : List Op)
    (s : Sys) (hrun : run env ops (Sys.new pool) = .ok s) :
    (∀ sched s1, Logger.Close env sched s = .ok s1 →
      s1.phase = .done ∧
      (∀ more, dispatch env more s1 = s1) ∧
      ∃ s0 tail, closeTunnel s = .ok s0 ∧
        s1.trace = (dispatch env sched s0).trace ++ tail ∧
        flushes tail = ((s.logger.writers.enum.filter (fun p => p.2.isFlusher)).map Prod.fst) ∧
        writes tail = [] ∧
        ∀ a ∈ tail, (∃ j, a = .Flush j) ∨ a = .Println) ∧
    (s.logger.tunnel.closed = false → ∀ sched : List Sel,
      s.logger.tunnel.buf.length + 1 ≤ sched.count .tunnel →
        ∃ s1, Logger.Close env sched s = .ok s1) := by
  have hq : Quiet s := Quiet_run env ops _ s hrun (Quiet_new pool)
  refine ⟨?_, ?_⟩
  · intro sched s1 h
    unfold Logger.Close at h
    cases hct : closeTunnel s with
    | error e => rw [hct] at h; simp at h
    | ok s0 =>
      rw [hct] at h
      simp only at h
      have hq0 : Quiet s0 := Quiet_exec env .closeTunnel s s0 hct hq
      have hq2 : Quiet (dispatch env sched s0) := Quiet_dispatch env sched s0 hq0
      have hw0 : s0.logger.writers = s.logger.writers := by
        unfold closeTunnel at hct
        split at hct
        · simp at hct
        · simp only [Except.ok.injEq] at hct; subst hct; rfl
      unfold closeFlush at h
      split at h
      · simp at h
      · rename_i x c hc
        simp only [Except.ok.injEq] at h
        have hdone : (dispatch env sched s0).phase = .done := hq2.1 (by rw [hc]; simp)
        have hp1 : s1.phase = .done := by rw [← h]; exact hdone
        refine ⟨hp1, fun more => dispatch_done env more s1 hp1, s0, ?_⟩
        obtain ⟨tail, ht, hall⟩ :=
          flushAll_tail env (dispatch env sched s0).logger.writers 0 (dispatch env sched s0).trace
        refine ⟨tail, rfl, by rw [← h]; exact ht, ?_, ?_, hall⟩
        · have := flushAll_flushes env (dispatch env sched s0).logger.writers 0
            (dispatch env sched s0).trace
          rw [ht, flushes_append, List.append_cancel_left_eq] at this
          rw [this, flusherIdx_enumFrom, dispatch_writers, hw0]
          rfl
        · have := flushAll_writes env (dispatch env sched s0).logger.writers 0
            (dispatch env sched s0).trace
          rw [ht, writes_append] at this
          simpa using this
  · intro hopen sched hn
    have hnd : s.phase ≠ .done := by
      intro hp
      have := hq.2 hp
      rw [hopen] at this
      simp at this
    obtain ⟨s0, hct, hp0, hc0, hb0⟩ : ∃ s0, closeTunnel s = .ok s0 ∧ s0.phase = s.phase ∧
        s0.logger.tunnel.closed = true ∧ s0.logger.tunnel.buf = s.logger.tunnel.buf :=
      ⟨{ s with
          logger := { s.logger with tunnel := { s.logger.tunnel with closed := true } }
          trace := s.trace ++ [.CloseTunnel] }, by simp [closeTunnel, hopen], rfl, rfl, rfl⟩
    have hq0 := Quiet_exec env .closeTunnel s s0 hct hq
    have hdone := dispatch_terminates env sched s0 hq0 hc0 (by rw [hb0]; exact hn)
    have hsig := dispatch_signals env sched s0 (by rw [hp0]; exact hnd) hdone
    unfold Logger.Close
    rw [hct]
    simp only
    unfold closeFlush
    split
    · rename_i hc; exact absurd hc hsig
    · exact ⟨_, rfl⟩


theorem boostrapLogWriter_loop_record (env : Env) (s : Sys) (r : Record) (rest : List Record)
    (hp : s.phase = .loop) (hb : s.logger.tunnel.buf = r :: rest) :
    boostrapLogWriter env .tunnel s =
      { s with
        logger := { s.logger with tunnel := { s.logger.tunnel with buf := rest } }
        trace := fanOut env r 0 s.logger.writers s.trace ++ [.Put r]
        pool := r :: s.pool } := by
  unfold boostrapLogWriter
  rw [hp]
  simp only
  rw [hb]

theorem boostrapLogWriter_first_record (env : Env) (sel : Sel) (s : Sys) (r : Record)
    (rest : List Record) (hp : s.phase = .first) (hb : s.logger.tunnel.buf = r :: rest) :
    boostrapLogWriter env sel s =
      { s with
        logger := { s.logger with tunnel := { s.logger.tunnel with buf := rest } }
        trace := fanOut env r 0 s.logger.writers s.trace
        phase := .loop
        flushTimer := some 500
        rotateTimer := some 10000 } := by
  unfold boostrapLogWriter
  rw [hp]
  simp only
  rw [hb]

/-- C9. A plain emit that is accepted pushes the record it took from the pool with
`Info`, `Code`, `Time` and `Level` overwritten and `Ext` as it was. So when an
extended emit with payload `e` has been dispatched by the loop and its record
returned to the pool, a plain emit that is handed that record pushes it with
`Ext = e`. -/
theorem plain_emit_keeps_Ext (env : Env) (amb : Ambient) (level : Int) (format : String)
    (codeLine : Bool) (args : List Any) (s : Sys)
    (hlvl : s.logger.level ≤ level) (hopen : s.logger.tunnel.closed = false) :
    (∃ s1 r, Logger.deliverRecordToWriterCodeLine env amb level format codeLine args s
          = .ok s1 ∧
        s1.logger.tunnel.buf = s.logger.tunnel.buf ++ [r] ∧
        r = { (poolGet s.pool amb.pick).1 with
              Info := r.Info, Code := r.Code, Time := r.Time, Level := r.Level } ∧
        r.Ext = (poolGet s.pool amb.pick).1.Ext) ∧
    (∀ (amb0 : Ambient) (e : Any) (level0 : Int) (format0 : String) (args0 : List Any),
      s.logger.level ≤ level0 → s.phase = .loop → s.logger.tunnel.buf = [] → amb.pick = 0 →
      ∃ s1 s3 r, Logger.deliverRecordExtToWriter env amb0 e level0 format0 args0 s = .ok s1 ∧
        Logger.deliverRecordToWriterCodeLine env amb level format codeLine args
          (boostrapLogWriter env .tunnel s1) = .ok s3 ∧
        s3.logger.tunnel.buf = [r] ∧ r.Ext = e) := by
  refine ⟨⟨_, _, deliver_accept env amb level format codeLine args s hlvl hopen, rfl, rfl, rfl⟩, ?_⟩
  intro amb0 e level0 format0 args0 hlvl0 hphase hbuf hpick
  have h1 := deliverExt_accept env amb0 e level0 format0 args0 s hlvl0 hopen
  rw [hbuf, List.nil_append] at h1
  generalize hr1 : ({ (poolGet s.pool amb0.pick).1 with
      Info := if format0 ≠ "" then env.Sprintf format0 args0 else env.Sprint args0
      Code := codeOf amb0.caller
      Time := (refreshTime env amb0.now s).logger.lastTimeStr
      Level := level0
      Ext := e } : Record) = r1 at h1
  have hext : r1.Ext = e := by rw [← hr1]
  generalize hs1 : ({ refreshTime env amb0.now s with
        logger := { (refreshTime env amb0.now s).logger with
          tunnel := { s.logger.tunnel with buf := [r1] } }
        pool := (poolGet s.pool amb0.pick).2
        trace := (refreshTime env amb0.now s).trace ++
          [.Get (poolGet s.pool amb0.pick).1, .Send r1] } : Sys) = s1 at h1
  have hp1 : s1.phase = .loop := by rw [← hs1]; simpa [refreshTime_phase] using hphase
  have hb1 : s1.logger.tunnel.buf = [r1] := by rw [← hs1]
  have hc1 : s1.logger.tunnel.closed = false := by rw [← hs1]; exact hopen
  have hl1 : s1.logger.level = s.logger.level := by rw [← hs1]; simp [refreshTime_level]
  have h2 := boostrapLogWriter_loop_record env s1 r1 [] hp1 hb1
  have h3 := deliver_accept env amb level format codeLine args (boostrapLogWriter env .tunnel s1)
    (by rw [h2]; simpa [hl1] using hlvl) (by rw [h2]; exact hc1)
  have hb2 : (boostrapLogWriter env .tunnel s1).logger.tunnel.buf = [] := by rw [h2]
  refine ⟨s1, _, { (poolGet (boostrapLogWriter env .tunnel s1).pool amb.pick).1 with
      Info := if format ≠ "" then env.Sprintf format args else env.Sprint args
      Code := if codeLine then codeOf amb.caller else ""
      Time := (refreshTime env amb.now (boostrapLogWriter env .tunnel s1)).logger.lastTimeStr
      Level := level }, h1, h3, ?_, ?_⟩
  · show (boostrapLogWriter env .tunnel s1).logger.tunnel.buf ++ [_] = [_]
    rw [hb2]; rfl
  · show (poolGet (boostrapLogWriter env .tunnel s1).pool amb.pick).1.Ext = e
    rw [h2, hpick]
    simpa [poolGet] using hext


theorem refreshTime_formats (env : Env) (now : GoTime) (s : Sys) :
    formats (refreshTime env now s).trace =
      formats s.trace ++
        (if now.Unix ≠ s.logger.lastTime then [(now, s.logger.layout)] else []) := by
  unfold refreshTime; split
  · simp [formats_append, formats]
  · simp

/-- What an accepted emit leaves: one more record on the tunnel, stamped with the
cached string, the cache refreshed for the emit's second. -/
theorem emit_accepted (env : Env) (op : Op) (s s1 : Sys) (amb : Ambient) (level : Int)
    (he : op.emit? = some (amb, level)) (h : exec env op s = .ok s1)
    (hacc : s.logger.level ≤ level) :
    ∃ r, s1.logger.tunnel.buf = s.logger.tunnel.buf ++ [r] ∧
      r.Time = s1.logger.lastTimeStr ∧
      s1.logger.lastTime = amb.now.Unix ∧
      s1.logger.layout = s.logger.layout ∧
      s1.logger.level = s.logger.level ∧
      (amb.now.Unix = s.logger.lastTime →
        s1.logger.lastTimeStr = s.logger.lastTimeStr ∧ formats s1.trace = formats s.trace) ∧
      (amb.now.Unix ≠ s.logger.lastTime →
        s1.logger.lastTimeStr = env.Format amb.now s.logger.layout ∧
        formats s1.trace = formats s.trace ++ [(amb.now, s.logger.layout)]) := by
  rcases emit_effect env op s s1 amb level he h with ⟨hlt, _⟩ | ⟨_, _, r, _, hr, rfl⟩
  · exact absurd hlt (not_lt.mpr hacc)
  · refine ⟨r, rfl, hr, refreshTime_lastTime env amb.now s, refreshTime_layout env amb.now s,
      refreshTime_level env amb.now s, ?_, ?_⟩
    · intro hsame
      simp [formats_append, formats, refreshTime_formats, hsame,
        refreshTime_same env amb.now s hsame]
    · intro hne
      simp [formats_append, formats, refreshTime_formats, hne,
        (refreshTime_str_of_ne env amb.now s hne).1]

theorem signalDone_cache (s : Sys) :
    (signalDone s).logger.layout = s.logger.layout ∧
    (signalDone s).logger.lastTime = s.logger.lastTime ∧
    (signalDone s).logger.lastTimeStr = s.logger.lastTimeStr := by
  unfold signalDone; split <;> exact ⟨rfl, rfl, rfl⟩

theorem boostrapLogWriter_cache (env : Env) (sel : Sel) (s : Sys) :
    (boostrapLogWriter env sel s).logger.layout = s.logger.layout ∧
    (boostrapLogWriter env sel s).logger.lastTime = s.logger.lastTime ∧
    (boostrapLogWriter env sel s).logger.lastTimeStr = s.logger.lastTimeStr := by
  unfold boostrapLogWriter
  split
  · exact ⟨rfl, rfl, rfl⟩
  · split
    · split
      · exact signalDone_cache s
      · exact ⟨rfl, rfl, rfl⟩
    · exact ⟨rfl, rfl, rfl⟩
  · split
    · split
      · split
        · exact signalDone_cache s
        · exact ⟨rfl, rfl, rfl⟩
      · exact ⟨rfl, rfl, rfl⟩
    · exact ⟨rfl, rfl, rfl⟩
    · exact ⟨rfl, rfl, rfl⟩

/-- An accepted emit, with the record it sends. -/
theorem emit_accepted_sends (env : Env) (op : Op) (s s1 : Sys) (amb : Ambient) (level : Int)
    (he : op.emit? = some (amb, level)) (h : exec env op s = .ok s1)
    (hacc : s.logger.level ≤ level) :
    ∃ r, s1.logger.tunnel.buf = s.logger.tunnel.buf ++ [r] ∧
      sends s1.trace = sends s.trace ++ [r] ∧
      r.Time = s1.logger.lastTimeStr ∧
      s1.logger.lastTime = amb.now.Unix ∧
      (amb.now.Unix = s.logger.lastTime →
        s1.logger.lastTimeStr = s.logger.lastTimeStr ∧ formats s1.trace = formats s.trace) ∧
      (amb.now.Unix ≠ s.logger.lastTime →
        s1.logger.lastTimeStr = env.Format amb.now s.logger.layout ∧
        formats s1.trace = formats s.trace ++ [(amb.now, s.logger.layout)]) := by
  rcases emit_effect env op s s1 amb level he h with ⟨hlt, _⟩ | ⟨_, _, r, _, hr, rfl⟩
  · exact absurd hlt (not_lt.mpr hacc)
  · refine ⟨r, rfl, ?_, hr, refreshTime_lastTime env amb.now s, ?_, ?_⟩
    · simp [sends_append, sends, refreshTime_sends]
    · intro hsame
      simp [formats_append, formats, refreshTime_formats, hsame,
        refreshTime_same env amb.now s hsame]
    · intro hne
      simp [formats_append, formats, refreshTime_formats, hne,
        (refreshTime_str_of_ne env amb.now s hne).1]

/-- One operation either sends nothing and keeps the timestamp cache, or sends a
record. -/
theorem exec_sends_cache (env : Env) (op : Op) (s s1 : Sys) (h : exec env op s = .ok s1) :
    ∃ extra, sends s1.trace = sends s.trace ++ extra ∧
      (extra = [] → s1.logger.lastTime = s.logger.lastTime ∧
        s1.logger.lastTimeStr = s.logger.lastTimeStr) := by
  have hemit : ∀ amb level, op.emit? = some (amb, level) →
      ∃ extra, sends s1.trace = sends s.trace ++ extra ∧
        (extra = [] → s1.logger.lastTime = s.logger.lastTime ∧
          s1.logger.lastTimeStr = s.logger.lastTimeStr) := by
    intro amb level he
    rcases emit_effect env op s s1 amb level he h with ⟨_, rfl⟩ | ⟨hacc, _, _, _, _, _⟩
    · exact ⟨[], by simp, fun _ => ⟨rfl, rfl⟩⟩
    · obtain ⟨r, -, hs, -, -, -, -⟩ := emit_accepted_sends env op s s1 amb level he h hacc
      exact ⟨[r], hs, fun hnil => by simp at hnil⟩
  cases op with
  | Register w =>
    simp only [exec, Logger.Register] at h
    split at h
    · simp at h
    · simp only [Except.ok.injEq] at h; subst h; exact ⟨[], by simp, fun _ => ⟨rfl, rfl⟩⟩
  | SetLevel lvl =>
    simp only [exec, Except.ok.injEq] at h; subst h
    exact ⟨[], by simp [Logger.SetLevel], fun _ => ⟨rfl, rfl⟩⟩
  | SetLayout layout =>
    simp only [exec, Except.ok.injEq] at h; subst h
    exact ⟨[], by simp [Logger.SetLayout], fun _ => ⟨rfl, rfl⟩⟩
  | deliver amb level format codeLine args => exact hemit amb level rfl
  | deliverExt amb ext level format args => exact hemit amb level rfl
  | step sel =>
    simp only [exec, Except.ok.injEq] at h; subst h
    exact ⟨[], by simp [boostrapLogWriter_sends],
      fun _ => (boostrapLogWriter_cache env sel s).2⟩
  | closeTunnel =>
    simp only [exec, closeTunnel] at h
    split at h
    · simp at h
    · simp only [Except.ok.injEq] at h; subst h
      exact ⟨[], by simp [sends_append, sends], fun _ => ⟨rfl, rfl⟩⟩
  | closeFlush =>
    simp only [exec, closeFlush] at h
    split at h
    · simp at h
    · simp only [Except.ok.injEq] at h; subst h
      exact ⟨[], by simp [flushAll_sends], fun _ => ⟨rfl, rfl⟩⟩

/-- A run that sends nothing keeps the timestamp cache. -/
theorem run_sends_cache (env : Env) (ops : List Op) :
    ∀ (s s1 : Sys), run env ops s = .ok s1 →
      ∃ extra, sends s1.trace = sends s.trace ++ extra ∧
        (extra = [] → s1.logger.lastTime = s.logger.lastTime ∧
          s1.logger.lastTimeStr = s.logger.lastTimeStr) := by
  induction ops with
  | nil =>
    intro s s1 h
    simp only [run, Except.ok.injEq] at h; subst h
    exact ⟨[], by simp, fun _ => ⟨rfl, rfl⟩⟩
  | cons op ops ih =>
    intro s s1 h
    simp only [run] at h
    split at h
    · simp at h
    · rename_i s0 hs0
      obtain ⟨e0, h0, c0⟩ := exec_sends_cache env op s s0 hs0
      obtain ⟨e1, h1, c1⟩ := ih s0 s1 h
      refine ⟨e0 ++ e1, by rw [h1, h0, List.append_assoc], ?_⟩
      intro hnil
      obtain ⟨hn0, hn1⟩ := List.append_eq_nil.mp hnil
      obtain ⟨a0, b0⟩ := c0 hn0
      obtain ⟨a1, b1⟩ := c1 hn1
      exact ⟨by rw [a1, a0], by rw [b1, b0]⟩

/-- C4 (amended). Two consecutive accepted emits on a logger, with whatever else runs
between them and pushes no record: steps of the dispatch goroutine,
registrations, changes of level and layout, rejected emits. In the same Unix
second the second record carries the same `Time` string as the first and
nothing is formatted for it. In different seconds the cache is recomputed: the
time of the second emit is formatted once with the logger's layout, the result
is cached with the new second and stamped on the second record; the two
strings differ exactly when that result differs from the first record's. -/
theorem timestamp_cache_refreshes_on_second_change (env : Env) (op1 op2 : Op)
    (between : List Op) (amb1 amb2 : Ambient) (level1 level2 : Int) (s s1 sm s2 : Sys)
    (he1 : op1.emit? = some (amb1, level1)) (he2 : op2.emit? = some (amb2, level2))
    (h1 : exec env op1 s = .ok s1) (hm : run env between s1 = .ok sm)
    (hquiet : sends sm.trace = sends s1.trace) (h2 : exec env op2 sm = .ok s2)
    (hacc1 : s.logger.level ≤ level1) (hacc2 : sm.logger.level ≤ level2) :
    ∃ r1 r2, s1.logger.tunnel.buf = s.logger.tunnel.buf ++ [r1] ∧
      s2.logger.tunnel.buf = sm.logger.tunnel.buf ++ [r2] ∧
      sends s2.trace = sends s.trace ++ [r1, r2] ∧
      (amb2.now.Unix = amb1.now.Unix →
        r2.Time = r1.Time ∧ formats s2.trace = formats sm.trace ∧
        s2.logger.lastTime = s1.logger.lastTime ∧
        s2.logger.lastTimeStr = s1.logger.lastTimeStr) ∧
      (amb2.now.Unix ≠ amb1.now.Unix →
        formats s2.trace = formats sm.trace ++ [(amb2.now, sm.logger.layout)] ∧
        s2.logger.lastTime = amb2.now.Unix ∧
        s2.logger.lastTimeStr = env.Format amb2.now sm.logger.layout ∧
        r2.Time = env.Format amb2.now sm.logger.layout ∧
        (r2.Time ≠ r1.Time ↔ env.Format amb2.now sm.logger.layout ≠ r1.Time)) := by
  obtain ⟨r1, hb1, hs1, ht1, hl1, -, -⟩ :=
    emit_accepted_sends env op1 s s1 amb1 level1 he1 h1 hacc1
  obtain ⟨r2, hb2, hs2, ht2, hl2, hsame, hdiff⟩ :=
    emit_accepted_sends env op2 sm s2 amb2 level2 he2 h2 hacc2
  obtain ⟨extra, hx, hkeep⟩ := run_sends_cache env between s1 sm hm
  have hnil : extra = [] := by
    rw [hquiet] at hx
    exact (List.self_eq_append_right.mp hx)
  obtain ⟨hmt, hms⟩ := hkeep hnil
  refine ⟨r1, r2, hb1, hb2, by rw [hs2, hquiet, hs1]; simp, ?_, ?_⟩
  · intro h
    obtain ⟨hs, hf⟩ := hsame (by rw [hmt, hl1]; exact h)
    exact ⟨by rw [ht2, ht1, hs, hms], hf, by rw [hl2, hl1, h], by rw [hs, hms]⟩
  · intro h
    obtain ⟨hs, hf⟩ := hdiff (by rw [hmt, hl1]; exact h)
    exact ⟨hf, hl2, hs, by rw [ht2, hs], by rw [ht2, hs]⟩

/-- One operation other than `SetLayout` keeps the layout, and either keeps the
timestamp cache or is an emit that refreshed it with the layout. -/
theorem exec_cache (env : Env) (op : Op) (s s1 : Sys) (hop : op.isSetLayout = false)
    (h : exec env op s = .ok s1) :
    s1.logger.layout = s.logger.layout ∧
    ((s1.logger.lastTime = s.logger.lastTime ∧ s1.logger.lastTimeStr = s.logger.lastTimeStr) ∨
      ∃ a l, op.emit? = some (a, l) ∧ s1.logger.lastTime = a.now.Unix ∧
        s1.logger.lastTimeStr = env.Format a.now s.logger.layout) := by
  have hemit : ∀ amb level, op.emit? = some (amb, level) →
      s1.logger.layout = s.logger.layout ∧
      ((s1.logger.lastTime = s.logger.lastTime ∧
          s1.logger.lastTimeStr = s.logger.lastTimeStr) ∨
        ∃ a l, op.emit? = some (a, l) ∧ s1.logger.lastTime = a.now.Unix ∧
          s1.logger.lastTimeStr = env.Format a.now s.logger.layout) := by
    intro amb level he
    rcases emit_effect env op s s1 amb level he h with ⟨_, rfl⟩ | ⟨hacc, _, _, _, _, _⟩
    · exact ⟨rfl, Or.inl ⟨rfl, rfl⟩⟩
    · obtain ⟨r, -, -, hl, hlay, -, hsame, hdiff⟩ :=
        emit_accepted env op s s1 amb level he h hacc
      refine ⟨hlay, ?_⟩
      by_cases hu : amb.now.Unix = s.logger.lastTime
      · exact Or.inl ⟨by rw [hl, hu], (hsame hu).1⟩
      · exact Or.inr ⟨amb, level, he, hl, (hdiff hu).1⟩
  cases op with
  | Register w =>
    simp only [exec, Logger.Register] at h
    split at h
    · simp at h
    · simp only [Except.ok.injEq] at h; subst h; exact ⟨rfl, Or.inl ⟨rfl, rfl⟩⟩
  | SetLevel lvl =>
    simp only [exec, Except.ok.injEq] at h; subst h; exact ⟨rfl, Or.inl ⟨rfl, rfl⟩⟩
  | SetLayout layout => simp [Op.isSetLayout] at hop
  | deliver amb level format codeLine args => exact hemit amb level rfl
  | deliverExt amb ext level format args => exact hemit amb level rfl
  | step sel =>
    simp only [exec, Except.ok.injEq] at h; subst h
    have := boostrapLogWriter_cache env sel s
    exact ⟨this.1, Or.inl this.2⟩
  | closeTunnel =>
    simp only [exec, closeTunnel] at h
    split at h
    · simp at h
    · simp only [Except.ok.injEq] at h; subst h; exact ⟨rfl, Or.inl ⟨rfl, rfl⟩⟩
  | closeFlush =>
    simp only [exec, closeFlush] at h
    split at h
    · simp at h
    · simp only [Except.ok.injEq] at h; subst h; exact ⟨rfl, Or.inl ⟨rfl, rfl⟩⟩

theorem run_cache (env : Env) (ops : List Op) :
    ∀ (s s1 : Sys), (∀ o ∈ ops, o.isSetLayout = false) → run env ops s = .ok s1 →
      s1.logger.layout = s.logger.layout ∧
      ((s1.logger.lastTime = s.logger.lastTime ∧
          s1.logger.lastTimeStr = s.logger.lastTimeStr) ∨
        ∃ o ∈ ops, ∃ a l, o.emit? = some (a, l) ∧ s1.logger.lastTime = a.now.Unix ∧
          s1.logger.lastTimeStr = env.Format a.now s.logger.layout) := by
  induction ops with
  | nil =>
    intro s s1 _ h
    simp only [run, Except.ok.injEq] at h; subst h
    exact ⟨rfl, Or.inl ⟨rfl, rfl⟩⟩
  | cons op ops ih =>
    intro s s1 hops h
    simp only [run] at h
    split at h
    · simp at h
    · rename_i s0 hs0
      obtain ⟨hlay0, hc0⟩ := exec_cache env op s s0 (hops op (List.mem_cons_self _ _)) hs0
      obtain ⟨hlay1, hc1⟩ := ih s0 s1 (fun o ho => hops o (List.mem_cons_of_mem _ ho)) h
      refine ⟨by rw [hlay1, hlay0], ?_⟩
      rcases hc1 with ⟨h1, h2⟩ | ⟨o, ho, a, l, he, h1, h2⟩
      · rcases hc0 with ⟨h3, h4⟩ | ⟨a, l, he, h3, h4⟩
        · exact Or.inl ⟨by rw [h1, h3], by rw [h2, h4]⟩
        · exact Or.inr ⟨op, List.mem_cons_self _ _, a, l, he, by rw [h1, h3], by rw [h2, h4]⟩
      · exact Or.inr ⟨o, List.mem_cons_of_mem _ ho, a, l, he, h1, by rw [h2, hlay0]⟩

/-- C5 (amended). After `SetLayout(layout)` and any further operations that do not set
the layout again, an accepted emit whose Unix second differs from the cached
one carries its own time formatted with `layout`. An accepted emit in the
cached second carries the cached string as it is: either still the string
cached before `SetLayout` was called, formatted under the layout of that
time, or the string an emit after the call formatted with `layout` in that
same second. -/
theorem SetLayout_applies_when_cache_refreshes (env : Env) (layout : String) (s s1 s2 : Sys)
    (ops : List Op) (op : Op) (amb : Ambient) (level : Int)
    (hops : ∀ o ∈ ops, o.isSetLayout = false)
    (hrun : run env ops (Logger.SetLayout layout s) = .ok s1)
    (he : op.emit? = some (amb, level)) (hacc : s1.logger.level ≤ level)
    (h2 : exec env op s1 = .ok s2) :
    ∃ r, s2.logger.tunnel.buf = s1.logger.tunnel.buf ++ [r] ∧
      (amb.now.Unix ≠ s1.logger.lastTime → r.Time = env.Format amb.now layout) ∧
      (amb.now.Unix = s1.logger.lastTime →
        r.Time = s1.logger.lastTimeStr ∧
        ((s1.logger.lastTime = s.logger.lastTime ∧
            s1.logger.lastTimeStr = s.logger.lastTimeStr) ∨
          ∃ o ∈ ops, ∃ a l, o.emit? = some (a, l) ∧ a.now.Unix = amb.now.Unix ∧
            s1.logger.lastTimeStr = env.Format a.now layout)) := by
  obtain ⟨hlay, hc⟩ := run_cache env ops _ s1 hops hrun
  have hlay1 : s1.logger.layout = layout := hlay
  obtain ⟨r, hb, ht, -, -, -, hsame, hdiff⟩ := emit_accepted env op s1 s2 amb level he h2 hacc
  refine ⟨r, hb, ?_, ?_⟩
  · intro hne
    rw [ht, (hdiff hne).1, hlay1]
  · intro heq
    refine ⟨by rw [ht, (hsame heq).1], ?_⟩
    rcases hc with ⟨h3, h4⟩ | ⟨o, ho, a, l, heo, h3, h4⟩
    · exact Or.inl ⟨h3, h4⟩
    · exact Or.inr ⟨o, ho, a, l, heo, by rw [heq, h3], h4⟩


/-! ## Lemmas on the package state -/

theorem init_state : init Pkg.zero =
    { heap := [Proc.new], logger_default := some 0, takeup := false, recordPool := [] } := rfl

theorem NewLogger_reuse (p : Pkg) (d : Nat) (hd : p.logger_default = some d)
    (ht : p.takeup = false) : NewLogger p = (d, { p with takeup := true }) := by
  simp [NewLogger, hd, ht]

theorem NewLogger_alloc (p : Pkg) (ht : p.takeup = true) :
    NewLogger p = (p.heap.length,
      { p with heap := p.heap ++ [Proc.new], logger_default := some p.heap.length }) := by
  unfold NewLogger
  cases hd : p.logger_default <;> simp [ht]

theorem newLoggers_alloc (n : Nat) :
    ∀ p : Pkg, p.takeup = true →
      (newLoggers n p).1 = List.range' p.heap.length n ∧
      (newLoggers n p).2.heap.length = p.heap.length + n ∧
      (newLoggers n p).2.takeup = true := by
  induction n with
  | zero => intro p ht; simp [newLoggers, ht]
  | succ n ih =>
    intro p ht
    simp only [newLoggers, NewLogger_alloc p ht]
    obtain ⟨h1, h2, h3⟩ :=
      ih ({ p with heap := p.heap ++ [Proc.new], logger_default := some p.heap.length }) ht
    refine ⟨?_, ?_, h3⟩
    · rw [h1]; simp [List.range'_succ]
    · rw [h2]; simp; omega

theorem onLogger_effect (l : Nat) (f : Sys → Except Fault Sys) (p p1 : Pkg)
    (h : onLogger l f p = .ok p1) :
    p1.heap.length = p.heap.length ∧ p1.logger_default = p.logger_default ∧
    p1.takeup = p.takeup ∧ ∀ j, j ≠ l → p1.heap.get? j = p.heap.get? j := by
  unfold onLogger at h
  split at h
  · simp at h
  · split at h
    · simp at h
    · simp only [Except.ok.injEq] at h
      subst h
      refine ⟨by simp, rfl, rfl, ?_⟩
      intro j hj
      simp [List.getElem?_set, Ne.symm hj]

theorem onDefault_effect (f : Sys → Except Fault Sys) (p p1 : Pkg)
    (h : onDefault f p = .ok p1) :
    ∃ d, p.logger_default = some d ∧
      p1.heap.length = p.heap.length ∧ p1.logger_default = p.logger_default ∧
      p1.takeup = p.takeup ∧ ∀ j, j ≠ d → p1.heap.get? j = p.heap.get? j := by
  unfold onDefault at h
  split at h
  · simp at h
  · rename_i d hd
    exact ⟨d, hd, onLogger_effect d f p p1 h⟩

theorem Facade_effect (env : Env) (f : Facade) (p p1 : Pkg) (h : f.call env p = .ok p1) :
    ∃ d, p.logger_default = some d ∧
      p1.heap.length = p.heap.length ∧ p1.logger_default = p.logger_default ∧
      p1.takeup = p.takeup ∧ ∀ j, j ≠ d → p1.heap.get? j = p.heap.get? j := by
  cases f <;> exact onDefault_effect _ p p1 h

/-- The package state after `n` calls of `NewLogger`: the default is the last logger
allocated, the first call has set `takeup`, and from the second call on there
are at least two loggers. -/
theorem PkgOp_run_newest (env : Env) (ops : List PkgOp) :
    ∀ (n : Nat) (p p1 : Pkg), PkgOp.run env ops p = .ok p1 →
      (0 < p.heap.length ∧ p.logger_default = some (p.heap.length - 1) ∧
        (1 ≤ n → p.takeup = true) ∧ (2 ≤ n → 2 ≤ p.heap.length)) →
      (0 < p1.heap.length ∧ p1.logger_default = some (p1.heap.length - 1) ∧
        (1 ≤ n + ops.countP PkgOp.isNewLogger → p1.takeup = true) ∧
        (2 ≤ n + ops.countP PkgOp.isNewLogger → 2 ≤ p1.heap.length)) := by
  induction ops with
  | nil =>
    intro n p p1 h hj
    simp only [PkgOp.run, Except.ok.injEq] at h; subst h
    simpa using hj
  | cons op ops ih =>
    intro n p p1 h hj
    simp only [PkgOp.run] at h
    split at h
    · simp at h
    · rename_i p0 hp0
      obtain ⟨j1, j2, j3, j4⟩ := hj
      cases op with
      | NewLogger =>
        simp only [PkgOp.exec, Except.ok.injEq] at hp0
        have := ih (n + 1) p0 p1 h (by
          subst hp0
          cases ht : p.takeup with
          | false =>
            rw [NewLogger_reuse p _ j2 ht]
            refine ⟨j1, j2, fun _ => rfl, fun h2 => j4 ?_⟩
            have : ¬ (1 ≤ n) := fun h1 => by simpa [ht] using j3 h1
            omega
          | true =>
            rw [NewLogger_alloc p ht]
            refine ⟨by simp, by simp, fun _ => ht, fun _ => by simp; omega⟩)
        simpa [List.countP_cons, PkgOp.isNewLogger, Nat.add_assoc, Nat.add_comm 1] using this
      | facade f =>
        simp only [PkgOp.exec] at hp0
        obtain ⟨d, -, e1, e2, e3, -⟩ := Facade_effect env f p p0 hp0
        have := ih n p0 p1 h ⟨by rw [e1]; exact j1, by rw [e1, e2]; exact j2,
          fun h1 => by rw [e3]; exact j3 h1, fun h2 => by rw [e1]; exact j4 h2⟩
        simpa [List.countP_cons, PkgOp.isNewLogger] using this
      | method l o =>
        simp only [PkgOp.exec] at hp0
        obtain ⟨e1, e2, e3, -⟩ := onLogger_effect l _ p p0 hp0
        have := ih n p0 p1 h ⟨by rw [e1]; exact j1, by rw [e1, e2]; exact j2,
          fun h1 => by rw [e3]; exact j3 h1, fun h2 => by rw [e1]; exact j4 h2⟩
        simpa [List.countP_cons, PkgOp.isNewLogger] using this

/-- C7. In the state left by `init` the first call of `NewLogger` returns the default
logger that `init` created and allocates nothing. Every later call, the
`(k + 2)`-th for any `k`, appends a new logger to the heap and returns its
address, which is not the address of the initial default and is none of the
addresses returned by the calls before it. -/
theorem NewLogger_reuses_default_once (k : Nat) :
    some (NewLogger (init Pkg.zero)).1 = (init Pkg.zero).logger_default ∧
    (NewLogger (init Pkg.zero)).2.heap = (init Pkg.zero).heap ∧
    (NewLogger (newLoggers (k + 1) (init Pkg.zero)).2).2.heap
      = (newLoggers (k + 1) (init Pkg.zero)).2.heap ++ [Proc.new] ∧
    (NewLogger (newLoggers (k + 1) (init Pkg.zero)).2).1
      = (newLoggers (k + 1) (init Pkg.zero)).2.heap.length ∧
    (NewLogger (newLoggers (k + 1) (init Pkg.zero)).2).1 ∉
      (newLoggers (k + 1) (init Pkg.zero)).1 ∧
    some (NewLogger (newLoggers (k + 1) (init Pkg.zero)).2).1
      ≠ (init Pkg.zero).logger_default := by
  have hfirst : NewLogger (init Pkg.zero) = (0, { init Pkg.zero with takeup := true }) :=
    NewLogger_reuse _ 0 rfl rfl
  obtain ⟨h1, h2, h3⟩ := newLoggers_alloc k { init Pkg.zero with takeup := true } rfl
  have hk : newLoggers (k + 1) (init Pkg.zero)
      = (0 :: (newLoggers k { init Pkg.zero with takeup := true }).1,
         (newLoggers k { init Pkg.zero with takeup := true }).2) := by
    simp only [newLoggers, hfirst]
  have hlen : (newLoggers (k + 1) (init Pkg.zero)).2.heap.length = 1 + k := by
    rw [hk]; simpa [init_state] using h2
  have ht : (newLoggers (k + 1) (init Pkg.zero)).2.takeup = true := by rw [hk]; exact h3
  have hall := NewLogger_alloc _ ht
  have hlist : (newLoggers (k + 1) (init Pkg.zero)).1 = 0 :: List.range' 1 k := by
    rw [hk]; simpa [init_state] using h1
  have hret : (NewLogger (newLoggers (k + 1) (init Pkg.zero)).2).1 = 1 + k := by
    rw [hall]; exact hlen
  refine ⟨by rw [hfirst]; rfl, by rw [hfirst], by rw [hall], by rw [hall], ?_, ?_⟩
  · rw [hret, hlist]
    simp only [List.mem_cons, List.mem_range', not_or]
    refine ⟨by omega, ?_⟩
    rintro ⟨i, hi, he⟩
    omega
  · rw [hret, init_state]
    simp

/-- C10. In every package state reached from `init` by calls of `NewLogger`, of the
package-level functions and of methods, `logger_default` is the last logger
allocated. A call of `NewLogger` that allocates stores the new logger, whose
writer list is empty, in `logger_default`. After two or more calls of
`NewLogger` the default is no longer the logger made by `init`, and a
package-level function changes at most the newest logger: the one made by
`init`, like every other, stays as it was. In every such state a call of a
package-level function is the call of its method on the newest logger: it
fails when that method fails, and otherwise returns the package state in
which the newest logger and the pool are as the method left them. So
`SetLevel`, `SetLayout` and `Register` of a writer whose `Init` succeeds
return with the level, the layout and the writer on the newest logger. -/
theorem logger_default_is_newest_logger (env : Env) (ops : List PkgOp) (p : Pkg)
    (hrun : PkgOp.run env ops (init Pkg.zero) = .ok p) :
    0 < p.heap.length ∧
    p.logger_default = some (p.heap.length - 1) ∧
    (p.takeup = true →
      (NewLogger p).1 = p.heap.length ∧
      (NewLogger p).2.heap = p.heap ++ [Proc.new] ∧
      (NewLogger p).2.logger_default = some p.heap.length ∧
      Proc.new.logger.writers = []) ∧
    (2 ≤ ops.countP PkgOp.isNewLogger →
      p.logger_default ≠ some 0 ∧
      ∀ (f : Facade) (p1 : Pkg), f.call env p = .ok p1 →
        p1.logger_default = p.logger_default ∧
        ∀ j, j ≠ p.heap.length - 1 → p1.heap.get? j = p.heap.get? j) ∧
    (∃ newest, p.heap.get? (p.heap.length - 1) = some newest ∧
      ∀ f : Facade, f.call env p =
        match f.method env { newest with pool := p.recordPool } with
        | .error e => .error e
        | .ok s1 =>
          .ok { p with
            heap := p.heap.set (p.heap.length - 1) s1.toProc
            recordPool := s1.pool }) ∧
    (∀ lvl : Int, ∃ p1, SetLevel lvl p = .ok p1 ∧
      (p1.heap.get? (p.heap.length - 1)).map (fun pr => pr.logger.level) = some lvl) ∧
    (∀ layout : String, ∃ p1, SetLayout layout p = .ok p1 ∧
      (p1.heap.get? (p.heap.length - 1)).map (fun pr => pr.logger.layout) = some layout) ∧
    (∀ w : Writer, w.initErr = false → ∃ p1, Register w p = .ok p1 ∧
      (p1.heap.get? (p.heap.length - 1)).map (fun pr => pr.logger.writers)
        = (p.heap.get? (p.heap.length - 1)).map (fun pr => pr.logger.writers ++ [w])) := by
  obtain ⟨j1, j2, -, j4⟩ := PkgOp_run_newest env ops 0 (init Pkg.zero) p hrun
    ⟨by simp [init_state], by simp [init_state], by simp, by simp⟩
  simp only [Nat.zero_add] at j4
  obtain ⟨newest, hn⟩ : ∃ newest, p.heap.get? (p.heap.length - 1) = some newest :=
    ⟨p.heap.get ⟨p.heap.length - 1, by omega⟩, List.get?_eq_get _⟩
  have hlt : p.heap.length - 1 < p.heap.length := by omega
  refine ⟨j1, j2, ?_, ?_, ?_, ?_, ?_, ?_⟩
  rotate_left 2
  · refine ⟨newest, hn, ?_⟩
    intro f
    cases f <;>
      simp only [Facade.call, Facade.method, Log4go.SetLevel, Log4go.SetLayout,
        Log4go.Register, Log4go.Close, Log4go.Debug, Log4go.Warn, Log4go.Info, Log4go.Error,
        Log4go.Fatal, Log4go.DebugF, Log4go.WarnF, Log4go.InfoF, Log4go.InfoFNL,
        Log4go.ErrorF, Log4go.FatalF, Log4go.DebugExtF, Log4go.WarnExtF, Log4go.InfoExtF,
        Log4go.NeverShowF, Log4go.ErrorExtF, Log4go.FatalExtF, onDefault, j2, onLogger, hn]
  · intro lvl
    refine ⟨_, by simp only [SetLevel, onDefault, j2, onLogger, hn]; rfl, ?_⟩
    simp [List.getElem?_set, hlt, Logger.SetLevel]
  · intro layout
    refine ⟨_, by simp only [SetLayout, onDefault, j2, onLogger, hn]; rfl, ?_⟩
    simp [List.getElem?_set, hlt, Logger.SetLayout]
  · intro w hw
    refine ⟨_, by simp only [Register, onDefault, j2, onLogger, hn, Logger.Register, hw]; rfl, ?_⟩
    have hget : p.heap[p.heap.length - 1] = newest := by
      rw [List.get?_eq_getElem?, List.getElem?_eq_getElem hlt] at hn
      injection hn
    simp [List.getElem?_set, hlt, hget]
  · intro ht
    rw [NewLogger_alloc p ht]
    exact ⟨rfl, rfl, rfl, rfl⟩
  · intro h2
    have hlen := j4 h2
    refine ⟨by rw [j2]; simp; omega, ?_⟩
    intro f p1 hf
    obtain ⟨d, hd, -, e2, -, e4⟩ := Facade_effect env f p p1 hf
    refine ⟨e2, ?_⟩
    intro j hj
    apply e4
    rw [j2] at hd
    simp only [Option.some.injEq] at hd
    rw [← hd]; exact hj


/-! ## Instances on concrete loggers -/

/-- C1 (amended) on a logger with floor WARNING: `Debug("x")` is rejected and leaves the state as
it was, an extended emit at level ERROR pushes one record of level ERROR. -/
theorem emit_pushes_iff_level_reaches_floor_witness :
    (DEBUG < (Logger.SetLevel WARNING (Sys.new [])).logger.level ∧
      Logger.deliverRecordToWriterCodeLine (utcEnv fun _ => false) (ambAt 1700000000 0 0)
        DEBUG "" true [.str "x"] (Logger.SetLevel WARNING (Sys.new []))
        = .ok (Logger.SetLevel WARNING (Sys.new []))) ∧
    ((Logger.SetLevel WARNING (Sys.new [])).logger.level ≤ ERROR ∧
      (Logger.SetLevel WARNING (Sys.new [])).logger.tunnel.closed = false ∧
      ∃ s2 r, Logger.deliverRecordExtToWriter (utcEnv fun _ => false) (ambAt 1700000000 0 0)
          (.str "req-7") ERROR "" [.str "z"] (Logger.SetLevel WARNING (Sys.new [])) = .ok s2 ∧
        r.Level = ERROR ∧
        s2.logger.tunnel.buf = (Logger.SetLevel WARNING (Sys.new [])).logger.tunnel.buf ++ [r] ∧
        sends s2.trace = sends (Logger.SetLevel WARNING (Sys.new [])).trace ++ [r] ∧
        gets s2.trace = gets (Logger.SetLevel WARNING (Sys.new [])).trace ++
          [(poolGet (Logger.SetLevel WARNING (Sys.new [])).pool (ambAt 1700000000 0 0).pick).1]) :=
  ⟨⟨by decide,
    ((emit_pushes_iff_level_reaches_floor (utcEnv fun _ => false) (ambAt 1700000000 0 0)
      (.str "req-7") DEBUG "" true [.str "x"] (Logger.SetLevel WARNING (Sys.new []))).1
        (by decide)).1⟩,
   ⟨by decide, by decide,
    ((emit_pushes_iff_level_reaches_floor (utcEnv fun _ => false) (ambAt 1700000000 0 0)
      (.str "req-7") ERROR "" true [.str "z"] (Logger.SetLevel WARNING (Sys.new []))).2.1
        (by decide) (by decide)).2⟩⟩

/-- C1, as stated, fails: on a logger on which `Close` has returned, an emit at level
ERROR, above the floor DEBUG, panics at the send; it returns no state and so
pushes no record. -/
theorem emit_after_Close_pushes_nothing :
    Logger.Close (utcEnv fun _ => false) [.tunnel] (Sys.new []) = .ok closedLogger ∧
    closedLogger.logger.level ≤ ERROR ∧
    Logger.deliverRecordToWriterCodeLine (utcEnv fun _ => false) (ambAt 1700000000 0 0)
      ERROR "" true [.str "z"] closedLogger = .error (.panic "send on closed channel") ∧
    Logger.deliverRecordExtToWriter (utcEnv fun _ => false) (ambAt 1700000000 0 0)
      (.str "req-7") ERROR "" [.str "z"] closedLogger
      = .error (.panic "send on closed channel") := by
  decide

/-- C6 on the record of `Warn("y")`. -/
theorem Record_String_layout_witness :
    ((3 : Int), "WARN") ∈ [((0 : Int), "DEBUG"), (1, "INFO"), (2, "NEVERShow"),
      (3, "WARN"), (4, "ERROR"), (5, "FATAL")] ∧
    warnRecord.String = .ok "2023-11-14 22:13:20 \t [WARN] \t <main.go:42>  \t y\n" :=
  ⟨by decide, (Record_String_layout warnRecord "WARN" (by decide)).2⟩

/-- C2 on the scenario with two writers whose every call returns an error: after the
tunnel is closed and the goroutine has run on, the `Write` calls are the
fan-out of the two records pushed. -/
theorem dispatch_loop_fans_out_in_order_witness :
    run (utcEnv fun _ => true)
      ([consoleWriter, fileWriter].map Op.Register ++ (scenarioOps ++ [.step .tunnel, .closeTunnel]))
      (Sys.new []) = .ok scenarioClosed ∧
    scenarioClosed.logger.tunnel.closed = true ∧
    scenarioClosed.logger.tunnel.buf.length + 1
      ≤ [Sel.flushTimer, .tunnel, .rotateTimer, .tunnel].count .tunnel ∧
    (dispatch (utcEnv fun _ => true) [.flushTimer, .tunnel, .rotateTimer, .tunnel]
        scenarioClosed).phase = .done ∧
    writes (dispatch (utcEnv fun _ => true) [.flushTimer, .tunnel, .rotateTimer, .tunnel]
        scenarioClosed).trace
      = fanOutAll [consoleWriter, fileWriter].length (sends scenarioClosed.trace) :=
  ⟨by decide, by decide, by decide,
   (dispatch_loop_fans_out_in_order (utcEnv fun _ => true) [consoleWriter, fileWriter] []
      (scenarioOps ++ [.step .tunnel, .closeTunnel]) scenarioClosed (by decide) (by decide)).2.2.2
      (by decide) [.flushTimer, .tunnel, .rotateTimer, .tunnel] (by decide)⟩


/-- C3 on the scenario with a console and a file writer: `Close` returns, the
goroutine has ended, and `Close` has flushed the file writer alone. -/
theorem Close_flushes_after_dispatch_ended_witness :
    run (utcEnv fun _ => true)
      ([Op.Register consoleWriter, Op.Register fileWriter] ++ scenarioOps) (Sys.new [])
      = .ok scenarioOpen ∧
    Logger.Close (utcEnv fun _ => true) [.tunnel, .flushTimer, .tunnel, .tunnel] scenarioOpen
      = .ok scenarioAfterClose ∧
    scenarioAfterClose.phase = .done ∧
    (∀ more, dispatch (utcEnv fun _ => true) more scenarioAfterClose = scenarioAfterClose) ∧
    ∃ s0 tail, closeTunnel scenarioOpen = .ok s0 ∧
      scenarioAfterClose.trace
        = (dispatch (utcEnv fun _ => true) [.tunnel, .flushTimer, .tunnel, .tunnel] s0).trace
          ++ tail ∧
      flushes tail
        = ((scenarioOpen.logger.writers.enum.filter (fun p => p.2.isFlusher)).map Prod.fst) ∧
      writes tail = [] ∧
      ∀ a ∈ tail, (∃ j, a = .Flush j) ∨ a = .Println :=
  ⟨by decide, by decide,
   (Close_flushes_after_dispatch_ended (utcEnv fun _ => true) []
      ([Op.Register consoleWriter, Op.Register fileWriter] ++ scenarioOps) scenarioOpen
      (by decide)).1 [.tunnel, .flushTimer, .tunnel, .tunnel] scenarioAfterClose (by decide)⟩

/-- C4 (amended) on two accepted emits one second apart, between which the goroutine
takes the first record, a writer is registered, level and layout change and an
emit is rejected. -/
theorem timestamp_cache_refreshes_on_second_change_witness :
    exec (utcEnv fun _ => false) (.deliver (ambAt 1700000000 0 0) INFO "" true [.str "a"])
      (Sys.new []) = .ok afterFirstEmit ∧
    run (utcEnv fun _ => false) betweenEmits afterFirstEmit = .ok afterBetween ∧
    sends afterBetween.trace = sends afterFirstEmit.trace ∧
    exec (utcEnv fun _ => false)
      (.deliverExt (ambAt 1700000001 0 0) (.str "req-7") WARNING "%s" [.str "b"])
      afterBetween = .ok afterSecondEmit ∧
    ∃ r1 r2, afterFirstEmit.logger.tunnel.buf = (Sys.new []).logger.tunnel.buf ++ [r1] ∧
      afterSecondEmit.logger.tunnel.buf = afterBetween.logger.tunnel.buf ++ [r2] ∧
      sends afterSecondEmit.trace = sends (Sys.new []).trace ++ [r1, r2] ∧
      ((ambAt 1700000001 0 0).now.Unix = (ambAt 1700000000 0 0).now.Unix →
        r2.Time = r1.Time ∧ formats afterSecondEmit.trace = formats afterBetween.trace ∧
        afterSecondEmit.logger.lastTime = afterFirstEmit.logger.lastTime ∧
        afterSecondEmit.logger.lastTimeStr = afterFirstEmit.logger.lastTimeStr) ∧
      ((ambAt 1700000001 0 0).now.Unix ≠ (ambAt 1700000000 0 0).now.Unix →
        formats afterSecondEmit.trace = formats afterBetween.trace ++
          [((ambAt 1700000001 0 0).now, afterBetween.logger.layout)] ∧
        afterSecondEmit.logger.lastTime = (ambAt 1700000001 0 0).now.Unix ∧
        afterSecondEmit.logger.lastTimeStr
          = (utcEnv fun _ => false).Format (ambAt 1700000001 0 0).now afterBetween.logger.layout ∧
        r2.Time
          = (utcEnv fun _ => false).Format (ambAt 1700000001 0 0).now afterBetween.logger.layout ∧
        (r2.Time ≠ r1.Time ↔
          (utcEnv fun _ => false).Format (ambAt 1700000001 0 0).now afterBetween.logger.layout
            ≠ r1.Time)) :=
  ⟨by decide, by decide, by decide, by decide,
   timestamp_cache_refreshes_on_second_change (utcEnv fun _ => false)
     (.deliver (ambAt 1700000000 0 0) INFO "" true [.str "a"])
     (.deliverExt (ambAt 1700000001 0 0) (.str "req-7") WARNING "%s" [.str "b"])
     betweenEmits (ambAt 1700000000 0 0) (ambAt 1700000001 0 0) INFO WARNING (Sys.new [])
     afterFirstEmit afterBetween afterSecondEmit rfl rfl (by decide) (by decide) (by decide)
     (by decide) (by decide) (by decide)⟩

/-- C4, as stated, fails: with the layout `2006-01-02` two accepted emits one second
apart, for each of which the timestamp is formatted, carry the same `Time`. -/
theorem different_seconds_same_Time_string :
    (ambAt 1700000000 0 0).now.Unix ≠ (ambAt 1700000001 0 0).now.Unix ∧
    (run (utcEnv fun _ => false)
        [ .SetLayout "2006-01-02",
          .deliver (ambAt 1700000000 0 0) INFO "" true [.str "a"],
          .deliver (ambAt 1700000001 0 0) INFO "" true [.str "b"] ]
        (Sys.new [])).map (fun s => (s.logger.tunnel.buf.map Record.Time, formats s.trace))
      = .ok (["2023-11-14", "2023-11-14"],
          [({ sec := 1700000000, nsec := 0 }, "2006-01-02"),
           ({ sec := 1700000001, nsec := 0 }, "2006-01-02")]) := by
  decide

/-- C5 (amended) on a logger whose layout is set to the time of day before two emits. -/
theorem SetLayout_applies_when_cache_refreshes_witness :
    run (utcEnv fun _ => false) [.deliver (ambAt 1700000000 0 0) INFO "" true [.str "a"]]
      (Logger.SetLayout "15:04:05" (Sys.new [])) = .ok afterLayoutAndEmit ∧
    exec (utcEnv fun _ => false) (.deliver (ambAt 1700000001 0 0) INFO "" true [.str "b"])
      afterLayoutAndEmit = .ok afterLayoutAndTwoEmits ∧
    ∃ r, afterLayoutAndTwoEmits.logger.tunnel.buf = afterLayoutAndEmit.logger.tunnel.buf ++ [r] ∧
      ((ambAt 1700000001 0 0).now.Unix ≠ afterLayoutAndEmit.logger.lastTime →
        r.Time = (utcEnv fun _ => false).Format (ambAt 1700000001 0 0).now "15:04:05") ∧
      ((ambAt 1700000001 0 0).now.Unix = afterLayoutAndEmit.logger.lastTime →
        r.Time = afterLayoutAndEmit.logger.lastTimeStr ∧
        ((afterLayoutAndEmit.logger.lastTime = (Sys.new []).logger.lastTime ∧
            afterLayoutAndEmit.logger.lastTimeStr = (Sys.new []).logger.lastTimeStr) ∨
          ∃ o ∈ [Op.deliver (ambAt 1700000000 0 0) INFO "" true [.str "a"]],
            ∃ a l, o.emit? = some (a, l) ∧ a.now.Unix = (ambAt 1700000001 0 0).now.Unix ∧
              afterLayoutAndEmit.logger.lastTimeStr
                = (utcEnv fun _ => false).Format a.now "15:04:05")) :=
  ⟨by decide, by decide,
   SetLayout_applies_when_cache_refreshes (utcEnv fun _ => false) "15:04:05" (Sys.new [])
     afterLayoutAndEmit afterLayoutAndTwoEmits
     [.deliver (ambAt 1700000000 0 0) INFO "" true [.str "a"]]
     (.deliver (ambAt 1700000001 0 0) INFO "" true [.str "b"]) (ambAt 1700000001 0 0) INFO
     (by decide) (by decide) rfl (by decide) (by decide)⟩

/-- C5, as stated, fails: an emit accepted after `SetLayout("15:04:05")` in the second
that is already cached carries the string formatted with the previous layout,
not its own time formatted with the new one, and nothing is formatted for it. -/
theorem SetLayout_ignored_within_cached_second :
    (run (utcEnv fun _ => false)
        [ .deliver (ambAt 1700000000 0 0) INFO "" true [.str "a"],
          .SetLayout "15:04:05",
          .deliver (ambAt 1700000000 500 0) INFO "" true [.str "b"] ]
        (Sys.new [])).map (fun s => (s.logger.tunnel.buf.map Record.Time, formats s.trace))
      = .ok (["2023-11-14 22:13:20", "2023-11-14 22:13:20"],
          [({ sec := 1700000000, nsec := 0 }, "2006-01-02 15:04:05")]) ∧
    (utcEnv fun _ => false).Format (ambAt 1700000000 500 0).now "15:04:05" = "22:13:20" := by
  decide

/-- The first record the goroutine receives is written to every writer and not
returned to the pool; every later record is written to every writer and then
returned. -/
theorem first_record_written_not_returned (env : Env) (sel : Sel) (s : Sys) (r : Record)
    (rest : List Record) (hb : s.logger.tunnel.buf = r :: rest) :
    (s.phase = .first →
      (boostrapLogWriter env sel s).pool = s.pool ∧
      puts (boostrapLogWriter env sel s).trace = puts s.trace ∧
      writes (boostrapLogWriter env sel s).trace
        = writes s.trace ++ (List.range s.logger.writers.length).map (fun i => (i, r))) ∧
    (s.phase = .loop →
      (boostrapLogWriter env .tunnel s).pool = r :: s.pool ∧
      (∃ calls, (boostrapLogWriter env .tunnel s).trace = calls ++ [.Put r] ∧
        writes calls
          = writes s.trace ++ (List.range s.logger.writers.length).map (fun i => (i, r)))) := by
  refine ⟨fun hp => ?_, fun hp => ?_⟩
  · rw [boostrapLogWriter_first_record env sel s r rest hp hb]
    refine ⟨rfl, ?_, ?_⟩
    · exact fanOut_puts env r s.logger.writers 0 s.trace
    · simp [fanOut_writes, List.range_eq_range']
  · rw [boostrapLogWriter_loop_record env s r rest hp hb]
    exact ⟨rfl, _, rfl, by simp [fanOut_writes, List.range_eq_range']⟩

/-- C8, the code at the failing input: one writer, `Warn("y")` and `Error("z")` pushed,
the tunnel closed, the goroutine run to its end. Both records are written, in
order; only the second is returned to the pool. -/
theorem first_record_never_returned_to_pool :
    (run (utcEnv fun _ => false)
        [ .Register consoleWriter,
          .deliver (ambAt 1700000000 0 0) WARNING "" true [.str "y"],
          .deliver (ambAt 1700000001 0 0) ERROR "" true [.str "z"],
          .closeTunnel, .step .tunnel, .step .tunnel, .step .tunnel ]
        (Sys.new [])).map (fun s => (s.phase, writes s.trace, puts s.trace, s.pool))
      = .ok (.done, [(0, warnRecord), (0, errorRecord)], [errorRecord], [errorRecord]) := by
  decide

/-- C9 on a logger in its loop: the record of an extended emit with payload `req-7`
comes back from the pool and is pushed by a plain emit with that payload. -/
theorem plain_emit_keeps_Ext_witness :
    looping.logger.level ≤ DEBUG ∧ looping.logger.tunnel.closed = false ∧
    looping.logger.level ≤ NEVERShow ∧ looping.phase = .loop ∧
    looping.logger.tunnel.buf = [] ∧ (ambAt 1700000003 0 0).pick = 0 ∧
    ∃ s1 s3 r, Logger.deliverRecordExtToWriter (utcEnv fun _ => false) (ambAt 1700000002 0 0)
          (.str "req-7") NEVERShow "%s" [.str "hidden"] looping = .ok s1 ∧
        Logger.deliverRecordToWriterCodeLine (utcEnv fun _ => false) (ambAt 1700000003 0 0)
          DEBUG "" false [.str "plain"]
          (boostrapLogWriter (utcEnv fun _ => false) .tunnel s1) = .ok s3 ∧
        s3.logger.tunnel.buf = [r] ∧ r.Ext = .str "req-7" :=
  ⟨by decide, by decide, by decide, by decide, by decide, by decide,
   (plain_emit_keeps_Ext (utcEnv fun _ => false) (ambAt 1700000003 0 0) DEBUG "" false
      [.str "plain"] looping (by decide) (by decide)).2 (ambAt 1700000002 0 0) (.str "req-7")
      NEVERShow "%s" [.str "hidden"] (by decide) (by decide) (by decide) (by decide)⟩

/-- C10 after two calls of `NewLogger`, a writer registered through the facade before
the second and the level set through the facade after it: the writer is on
the logger made by `init`, the level on the second logger, whose writer list
is empty; the default is the second logger, and a package-level function is
its method applied to that logger and touches no other. -/
theorem logger_default_is_newest_logger_witness :
    PkgOp.run (utcEnv fun _ => false) twoLoggers (init Pkg.zero) = .ok afterTwoLoggers ∧
    2 ≤ twoLoggers.countP PkgOp.isNewLogger ∧
    afterTwoLoggers.heap.map (fun pr => (pr.logger.level, pr.logger.writers))
      = [(DEBUG, [consoleWriter]), (ERROR, [])] ∧
    (afterTwoLoggers.logger_default ≠ some 0 ∧
      ∀ (f : Facade) (p1 : Pkg), f.call (utcEnv fun _ => false) afterTwoLoggers = .ok p1 →
        p1.logger_default = afterTwoLoggers.logger_default ∧
        ∀ j, j ≠ afterTwoLoggers.heap.length - 1 →
          p1.heap.get? j = afterTwoLoggers.heap.get? j) ∧
    ∃ newest, afterTwoLoggers.heap.get? (afterTwoLoggers.heap.length - 1) = some newest ∧
      ∀ f : Facade, f.call (utcEnv fun _ => false) afterTwoLoggers =
        match f.method (utcEnv fun _ => false)
            { newest with pool := afterTwoLoggers.recordPool } with
        | .error e => .error e
        | .ok s1 =>
          .ok { afterTwoLoggers with
            heap := afterTwoLoggers.heap.set (afterTwoLoggers.heap.length - 1) s1.toProc
            recordPool := s1.pool } :=
  ⟨by decide, by decide, by decide,
   (logger_default_is_newest_logger (utcEnv fun _ => false) twoLoggers afterTwoLoggers
      (by decide)).2.2.2.1 (by decide),
   (logger_default_is_newest_logger (utcEnv fun _ => false) twoLoggers afterTwoLoggers
      (by decide)).2.2.2.2.1⟩


end Log4go
